import Mathlib

/-!
Verification development for the TestSyncer matching-and-learning engine.

This file gives a shallow embedding, in Lean 4, of the core of the
`TestSyncer_Xray` repository: the keyword-similarity index and issue-type
classifier (`src/services/learningService.js`), the correction store and its
learned-match search (same file), the matching engine
(`src/services/aiService.js`, `matchBugToTestCase`), the section/title
pre-filter (`src/services/workflowService.js`,
`findMatchesWithSectionFiltering`) and the open-defect gate
(`src/services/workflowService.js`, `checkForOpenBugs`, `getActiveBugs`,
`markTestAsPassedIntelligently`).

Modelling conventions:
* JavaScript strings are modelled as `List Char` (`Str`).  Lowercasing,
  splitting and trimming are re-implemented structurally so that concrete
  inputs evaluate inside the kernel.  The narrow regular expressions used by
  the issue-type classifier are modelled by a small explicit matcher
  (`Pat` / `patsMatchFrom`) covering exactly the constructs they use:
  literals, `\s+`, `\d` and `.*`.
* JavaScript numbers (confidences, similarity scores) are modelled as `ℚ`.
* An absent / `null` / empty-string field (all falsy in JavaScript) is
  modelled as the empty string `[]`; an absent object field is `Option`.
* Asynchronous calls to external collaborators (issue tracker, test
  management, the reasoning model) are modelled as explicit function
  arguments returning `Except`, where `.error` stands for a thrown
  exception.  The reasoning model's already-parsed JSON response is an
  explicit input (`AIResult`).
* File-backed persistence is modelled by `FileState`: a file is `missing`
  (read throws), `corrupt` (`JSON.parse` throws) or `stored data`.
-/

/-- JavaScript strings, modelled as lists of characters. -/
abbrev Str := List Char

/-- Coerce a Lean string literal to `Str`. -/
def str (s : String) : Str := s.data

/-- ASCII lowercasing of a text, `text.toLowerCase()` (the source only ever
lowercases ASCII titles and descriptions). -/
def jsToLower (s : Str) : Str := s.map Char.toLower

/-- The characters matched by the JavaScript regex class `\s` (for the ASCII
range used throughout the source). -/
def isSpaceJS (c : Char) : Bool :=
  c = ' ' || c = '\t' || c = '\n' || c = '\r' || c = '\x0b' || c = '\x0c'

/-- The characters matched by the JavaScript regex class `\w`:
`[A-Za-z0-9_]`. -/
def isWordCharJS (c : Char) : Bool :=
  (c ≥ 'a' && c ≤ 'z') || (c ≥ 'A' && c ≤ 'Z') || (c ≥ '0' && c ≤ '9') || c = '_'

/-- Split a string at every character satisfying `p`, keeping empty fields
(the behaviour of `s.split(c)` for a one-character separator; for
`split(/\s+/)` the only difference is extra empty fields, which every caller
filters away). -/
def splitOnPred (p : Char → Bool) : Str → List Str
  | [] => [[]]
  | c :: rest =>
    let r := splitOnPred p rest
    if p c then [] :: r
    else
      match r with
      | [] => [[c]]
      | w :: ws => (c :: w) :: ws

/-- `s.split(sep)` for a one-character separator. -/
def splitOnChar (sep : Char) (s : Str) : List Str :=
  splitOnPred (fun c => c = sep) s

/-- `s.trim()`. -/
def trimJS (s : Str) : Str :=
  ((s.dropWhile isSpaceJS).reverse.dropWhile isSpaceJS).reverse

/-- `needle` occurs at the start of `hay`. -/
def strStartsWith : Str → Str → Bool
  | [], _ => true
  | _ :: _, [] => false
  | a :: as, b :: bs => a = b && strStartsWith as bs

/-- `hay.includes(needle)` — plain substring occurrence. -/
def strContains (needle : Str) : Str → Bool
  | [] => strStartsWith needle []
  | s@(_ :: rest) => strStartsWith needle s || strContains needle rest

/-- `list.join(sep)`. -/
def strJoin (sep : Str) : List Str → Str
  | [] => []
  | [s] => s
  | s :: rest => s ++ sep ++ strJoin sep rest

/-- Elements of the narrow regular-expression fragment the issue-type
classifier uses: literal text, `\s+`, `.*` and `\d`. -/
inductive Pat where
  | lit (w : Str)
  | ws1
  | gap
  | dig
deriving DecidableEq

/-- Match a pattern sequence at the start of `s` (the remainder of `s` after
the match is unconstrained, as in `regex.test`).  `gap` (`.*`) matches any
run of characters other than a newline, with backtracking.  The recursion is
driven by an explicit fuel so that the definition is structural (and hence
evaluates inside the kernel); every step consumes one unit of fuel while
`ps.length + s.length` drops by at least one, so the fuel chosen by
`patsMatchFrom` is never exhausted. -/
def patsMatchFromFuel : Nat → List Pat → Str → Bool
  | 0, _, _ => false
  | _ + 1, [], _ => true
  | fuel + 1, .lit w :: ps, s =>
    strStartsWith w s && patsMatchFromFuel fuel ps (s.drop w.length)
  | fuel + 1, .dig :: ps, s =>
    match s with
    | [] => false
    | c :: r => c.isDigit && patsMatchFromFuel fuel ps r
  | fuel + 1, .ws1 :: ps, s =>
    match s with
    | [] => false
    | c :: r =>
      isSpaceJS c && (patsMatchFromFuel fuel ps r || patsMatchFromFuel fuel (.ws1 :: ps) r)
  | fuel + 1, .gap :: ps, s =>
    patsMatchFromFuel fuel ps s ||
      match s with
      | [] => false
      | c :: r => (c != '\n') && patsMatchFromFuel fuel (.gap :: ps) r

/-- Match a pattern sequence at the start of `s`. -/
def patsMatchFrom (ps : List Pat) (s : Str) : Bool :=
  patsMatchFromFuel (ps.length + s.length + 1) ps s

/-- `regex.test(s)`: the pattern sequence occurs somewhere in `s`. -/
def patOccurs (ps : List Pat) : Str → Bool
  | [] => patsMatchFrom ps []
  | s@(_ :: r) => patsMatchFrom ps s || patOccurs ps r

/-- Words separated by `\s+`, occurring anywhere (e.g. `not\s+provided`). -/
def wordSeq (ws : List Str) : List Pat :=
  match ws with
  | [] => []
  | [w] => [.lit w]
  | w :: rest => .lit w :: .ws1 :: wordSeq rest

/-- One alternative of the JS regex alternation occurs in `s`. -/
def anyPatOccurs (alts : List (List Pat)) (s : Str) : Bool :=
  alts.any (fun ps => patOccurs ps s)

/-! ## Keyword Similarity Index (`learningService.extractKeywords`,
`learningService.calculateKeywordMatch`) -/

/-- `Set.add`: append the element unless already present (JS `Set` keeps
first-insertion order). -/
def insertIfNew [DecidableEq α] (l : List α) (a : α) : List α :=
  if a ∈ l then l else l ++ [a]

/-- `new Set(list)`: deduplicate keeping the first occurrence of each
element. -/
def dedupKeepFirst [DecidableEq α] (l : List α) : List α :=
  l.foldl insertIfNew []

/-- The stop-word list of `extractKeywords`. -/
def stopWords : List Str :=
  [str "the", str "a", str "an", str "and", str "or", str "but", str "in",
   str "on", str "at", str "to", str "for", str "of", str "with", str "is",
   str "are", str "was", str "were", str "be", str "been", str "being"]

/-- `extractKeywords(text)`: lowercase, replace every character that is
neither a word character nor whitespace by a space, split on whitespace, and
keep the tokens of length `> 3` that are not stop words, as a set. -/
def extractKeywords (text : Str) : List Str :=
  let cleaned := (jsToLower text).map fun c =>
    if isWordCharJS c || isSpaceJS c then c else ' '
  let words := (splitOnPred isSpaceJS cleaned).filter
    fun w => w.length > 3 && !(w ∈ stopWords : Bool)
  dedupKeepFirst words

/-- `calculateKeywordMatch(set1, set2)`: Jaccard index
`|set1 ∩ set2| / |set1 ∪ set2|`, `0` when the union is empty. -/
def calculateKeywordMatch (set1 set2 : List Str) : ℚ :=
  let intersection := dedupKeepFirst (set1.filter (fun x => x ∈ set2))
  let union := dedupKeepFirst (set1 ++ set2)
  if union.length = 0 then 0 else (intersection.length : ℚ) / (union.length : ℚ)

/-! ## Issue-Type Classifier (`learningService.detectIssueType`) -/

/-- The classifier's category enumeration. -/
inductive IssueType where
  | headingMissing
  | headingLevel
  | headingGeneric
  | focus
  | title
  | language
  | form
  | image
  | table
  | link
  | color
  | unknown
deriving DecidableEq

/-- The `heading … missing` regex:
`not\s+provided|missing|not\s+programmatically|not\s+identified|header\s+not\s+provided`. -/
def headingMissingPat (lower : Str) : Bool :=
  anyPatOccurs
    [wordSeq [str "not", str "provided"],
     [.lit (str "missing")],
     wordSeq [str "not", str "programmatically"],
     wordSeq [str "not", str "identified"],
     wordSeq [str "header", str "not", str "provided"]] lower

/-- The `heading … level` regex:
`incorrect\s+level|wrong\s+level|heading\s+level|h\d.*incorrect|level.*incorrect|h\d.*should.*h\d`. -/
def headingLevelPat (lower : Str) : Bool :=
  anyPatOccurs
    [wordSeq [str "incorrect", str "level"],
     wordSeq [str "wrong", str "level"],
     wordSeq [str "heading", str "level"],
     [.lit (str "h"), .dig, .gap, .lit (str "incorrect")],
     [.lit (str "level"), .gap, .lit (str "incorrect")],
     [.lit (str "h"), .dig, .gap, .lit (str "should"), .gap, .lit (str "h"), .dig]] lower

/-- `detectIssueType(text)`: ordered substring / pattern rules, first match
wins; heading issues are split into missing vs wrong-level vs generic. -/
def detectIssueType (text : Str) : IssueType :=
  let lower := jsToLower text
  if strContains (str "heading") lower then
    if headingMissingPat lower then .headingMissing
    else if headingLevelPat lower then .headingLevel
    else .headingGeneric
  else if strContains (str "focus") lower || strContains (str "keyboard") lower then .focus
  else if strContains (str "page title") lower || strContains (str "title") lower then .title
  else if strContains (str "language") lower || strContains (str "lang") lower then .language
  else if strContains (str "form") lower || strContains (str "input") lower
      || strContains (str "label") lower then .form
  else if strContains (str "image") lower || strContains (str "alt") lower then .image
  else if strContains (str "table") lower || strContains (str "caption") lower then .table
  else if strContains (str "link") lower then .link
  else if strContains (str "color") lower || strContains (str "contrast") lower then .color
  else .unknown

/-! ## Correction Store (`learningService`) -/

/-- A bug's data as assembled by the workflow (`{key, summary, description}`);
a missing description is the empty string (`bugData.description || ''`). -/
structure BugData where
  key : Str
  summary : Str
  description : Str
deriving DecidableEq

/-- `bug.summary + ' ' + (bug.description || '')`, the text keywords and the
issue type are computed from. -/
def bugText (b : BugData) : Str := b.summary ++ [' '] ++ b.description

/-- A user correction record (`corrections.json` entry; the generated `id`
and `corrected_at` timestamp carry no behaviour and are omitted). -/
structure Correction where
  bug : BugData
  correct_test_id : Str
  correct_case_id : Str
  correct_title : Str
deriving DecidableEq

/-- The match stored inside a `matches.json` record. -/
structure RecMatch where
  test_id : Str
  case_id : Str
  title : Str
deriving DecidableEq

/-- A stored match record (`matches.json` entry).  `bug` and `mtch` are
optional because `findSimilarMatches` guards `!match.bug || !match.match`. -/
structure MatchRecord where
  bug : Option BugData
  mtch : Option RecMatch
deriving DecidableEq

/-- The observable states of a JSON-backed store file: the read throws
(missing/unreadable), `JSON.parse` throws (corrupt), or it holds data. -/
inductive FileState (α : Type) where
  | missing
  | corrupt
  | stored (data : α)
deriving DecidableEq

/-- `loadMatches`: return the parsed list, or `[]` when the read or the parse
throws. -/
def loadMatches (fs : FileState (List MatchRecord)) : List MatchRecord :=
  match fs with
  | .stored l => l
  | _ => []

/-- `loadCorrections`: return the parsed list, or `[]` when the read or the
parse throws. -/
def loadCorrections (fs : FileState (List Correction)) : List Correction :=
  match fs with
  | .stored l => l
  | _ => []

/-- `storeMatch`: no-op when learning is disabled; otherwise load the current
list (empty on load failure), append the record, and write the file.
`writeOk = false` models a throwing `fs.writeFile`, which the surrounding
`try/catch` absorbs, leaving the file as it was. -/
def storeMatch (learningEnabled : Bool) (fs : FileState (List MatchRecord))
    (r : MatchRecord) (writeOk : Bool) : FileState (List MatchRecord) :=
  if !learningEnabled then fs
  else if writeOk then .stored (loadMatches fs ++ [r]) else fs

/-- `storeCorrection`: same shape as `storeMatch`, over the corrections
file. -/
def storeCorrection (learningEnabled : Bool) (fs : FileState (List Correction))
    (c : Correction) (writeOk : Bool) : FileState (List Correction) :=
  if !learningEnabled then fs
  else if writeOk then .stored (loadCorrections fs ++ [c]) else fs

/-- The synthesized match `findSimilarMatch` returns (no `learned` field is
set by `learningService` itself; `aiService` adds it). -/
structure SimMatch where
  test_id : Str
  case_id : Str
  title : Str
  confidence : ℚ
  reasoning : Str
deriving DecidableEq

/-- The keyword-similarity score of a bug against a stored correction. -/
def scoreAgainstCorrection (bugKw : List Str) (c : Correction) : ℚ :=
  calculateKeywordMatch bugKw (extractKeywords (bugText c.bug))

/-- The match synthesized from a correction in single-match mode:
`confidence = 0.85 + matchScore * 0.15`. -/
def synthSingle (c : Correction) (score : ℚ) : SimMatch :=
  { test_id := c.correct_test_id
    case_id := c.correct_case_id
    title := c.correct_title
    confidence := 0.85 + score * 0.15
    reasoning := str "Similar to previous bug: \"" ++ c.bug.summary ++ str "\"" }

/-- The scan inside `findSimilarMatch`: walk the (already reversed,
newest-first) corrections and return the synthesized match of the first one
whose score exceeds `0.6`. -/
def findSimilarScan (bugKw : List Str) : List Correction → Option SimMatch
  | [] => none
  | c :: rest =>
    let score := scoreAgainstCorrection bugKw c
    if score > 0.6 then some (synthSingle c score) else findSimilarScan bugKw rest

/-- `findSimilarMatch(bugData)` on parsed corrections (single-match mode):
newest-first scan, `0.6` threshold.  No issue-type gating is applied on this
path. -/
def findSimilarMatchCore (bug : BugData) (corrections : List Correction) :
    Option SimMatch :=
  if corrections.length = 0 then none
  else findSimilarScan (extractKeywords (bugText bug)) corrections.reverse

/-- `findSimilarMatch` including the file read: load failure or corrupt JSON
yields `[]` corrections, hence `none` (the `try/catch` additionally maps any
error to `null`). -/
def findSimilarMatchFS (fs : FileState (List Correction)) (bug : BugData) :
    Option SimMatch :=
  findSimilarMatchCore bug (loadCorrections fs)

/-- A learned match as emitted by `findSimilarMatches` (multi-match mode);
these objects do carry `learned: true`. -/
structure LearnedMatch where
  test_id : Str
  case_id : Str
  title : Str
  confidence : ℚ
  reasoning : Str
  learned : Bool
deriving DecidableEq

/-- The issue-type gate of `findSimilarMatches`: skip a source whose type is
known, when the bug's type is also known and differs. -/
def issueTypeGate (bugType srcType : IssueType) : Bool :=
  !(bugType ≠ IssueType.unknown && srcType ≠ IssueType.unknown && bugType ≠ srcType : Bool)

/-- The corrections tier of `findSimilarMatches`: newest-first scan with the
issue-type gate, `0.5` threshold, weight `0.85 + score * 0.15`, deduplicating
on `test_id` through the shared `seenTestIds` set. -/
def corrTier (bugType : IssueType) (bugKw : List Str) :
    List Correction → List Str → List LearnedMatch × List Str
  | [], seen => ([], seen)
  | c :: rest, seen =>
    let srcType := detectIssueType (bugText c.bug)
    if !issueTypeGate bugType srcType then corrTier bugType bugKw rest seen
    else
      let score := scoreAgainstCorrection bugKw c
      if score > 0.5 then
        if c.correct_test_id ∈ seen then corrTier bugType bugKw rest seen
        else
          let res := corrTier bugType bugKw rest (c.correct_test_id :: seen)
          ({ test_id := c.correct_test_id
             case_id := c.correct_case_id
             title := c.correct_title
             confidence := 0.85 + score * 0.15
             reasoning := str "Learned from correction of similar bug: \""
               ++ c.bug.summary ++ str "\""
             learned := true } :: res.1, res.2)
      else corrTier bugType bugKw rest seen

/-- The match-records tier of `findSimilarMatches`: like the corrections
tier but over raw match records, threshold `0.5`, weight
`0.80 + score * 0.15`, skipping records with a missing `bug` or `match`. -/
def recTier (bugType : IssueType) (bugKw : List Str) :
    List MatchRecord → List Str → List LearnedMatch × List Str
  | [], seen => ([], seen)
  | r :: rest, seen =>
    match r.bug, r.mtch with
    | some rbug, some rm =>
      let srcType := detectIssueType (bugText rbug)
      if !issueTypeGate bugType srcType then recTier bugType bugKw rest seen
      else
        let score := calculateKeywordMatch bugKw (extractKeywords (bugText rbug))
        if score > 0.5 then
          if rm.test_id ∈ seen then recTier bugType bugKw rest seen
          else
            let res := recTier bugType bugKw rest (rm.test_id :: seen)
            ({ test_id := rm.test_id
               case_id := rm.case_id
               title := rm.title
               confidence := 0.80 + score * 0.15
               reasoning := str "Similar to previous bug: \"" ++ rbug.summary ++ str "\""
               learned := true } :: res.1, res.2)
        else recTier bugType bugKw rest seen
    | _, _ => recTier bugType bugKw rest seen

/-- `findSimilarMatches(bugData)` on parsed data (multi-match mode):
corrections tier first (newest-first), then match-records tier (newest-first),
sharing one `seenTestIds` set. -/
def findSimilarMatchesCore (bug : BugData) (corrections : List Correction)
    (recs : List MatchRecord) : List LearnedMatch :=
  if corrections.length = 0 ∧ recs.length = 0 then []
  else
    let bugKw := extractKeywords (bugText bug)
    let bugType := detectIssueType (bugText bug)
    let fromCorr := corrTier bugType bugKw corrections.reverse []
    let fromRecs := recTier bugType bugKw recs.reverse fromCorr.2
    fromCorr.1 ++ fromRecs.1

/-- `findSimilarMatches` including the file reads (failures load as `[]`,
and the `try/catch` maps any error to `[]`). -/
def findSimilarMatchesFS (fsC : FileState (List Correction))
    (fsM : FileState (List MatchRecord)) (bug : BugData) : List LearnedMatch :=
  findSimilarMatchesCore bug (loadCorrections fsC) (loadMatches fsM)

/-- A test-case link returned by `getTestCasesByBugKey` (the `run_id` field
stored alongside carries no behaviour here and is omitted). -/
structure LinkedTest where
  test_id : Str
  case_id : Str
  title : Str
deriving DecidableEq

/-- `getTestCasesByBugKey(bugKey)`: corrections recorded under the exact bug
key, else match records for that key; deduplicated (the JS dedups via a `Set`
of `JSON.stringify` images, i.e. by full tuple). -/
def getTestCasesByBugKey (fsM : FileState (List MatchRecord))
    (fsC : FileState (List Correction)) (bugKey : Str) : List LinkedTest :=
  let corrections := loadCorrections fsC
  let fromCorr := dedupKeepFirst
    (((corrections.filter (fun c => c.bug.key = bugKey)).map
      (fun c => LinkedTest.mk c.correct_test_id c.correct_case_id c.correct_title)))
  if fromCorr.length ≠ 0 then fromCorr
  else
    dedupKeepFirst (((loadMatches fsM).filterMap (fun r =>
      match r.bug, r.mtch with
      | some rbug, some rm =>
        if rbug.key = bugKey then some (LinkedTest.mk rm.test_id rm.case_id rm.title)
        else none
      | _, _ => none)))

/-! ## Matching Engine (`aiService.matchBugToTestCase`) -/

/-- A test case as delivered by the test-management collaborator; only the
fields the matching/pre-filter logic reads are modelled (`steps`,
`preconditions` and `expected` are only echoed into the prompt text). -/
structure TestCase where
  test_id : Str
  case_id : Str
  title : Str
  section_id : Option Int
deriving DecidableEq

/-- One entry of the reasoning model's parsed JSON output.  A missing
`test_id`/`case_id` field (or `null`, or the empty string — all falsy) is
the empty string. -/
structure RawMatch where
  test_id : Str
  case_id : Str
  title : Str
  confidence : ℚ
  reasoning : Str
deriving DecidableEq

/-- The parsed shape of the model's JSON response: either a single match
object or an object with a `matches` array. -/
inductive AIResult where
  | single (m : RawMatch)
  | multi (ms : List RawMatch)
deriving DecidableEq

/-- Reading the single-match fields off a response: a `matches`-array object
has no `test_id`/`case_id`/... fields, so they read back as falsy. -/
def respAsSingle : AIResult → RawMatch
  | .single m => m
  | .multi _ => { test_id := [], case_id := [], title := [], confidence := 0, reasoning := [] }

/-- `validateMatch(match, testCases)`: `test_id` and `case_id` must be
present (truthy) and `test_id` must exist verbatim among the candidates
(compared as strings). -/
def validateMatch (m : RawMatch) (testCases : List TestCase) : Bool :=
  !m.test_id.isEmpty && !m.case_id.isEmpty
    && testCases.any (fun tc => tc.test_id = m.test_id)

/-- The confidence-descending order the multi-match path sorts by
(`(a, b) => b.confidence - a.confidence`). -/
def confGe (a b : RawMatch) : Prop := b.confidence ≤ a.confidence

instance : DecidableRel confGe := fun a b => by
  unfold confGe; infer_instance

instance : IsTotal RawMatch confGe :=
  ⟨fun a b => le_total b.confidence a.confidence⟩

instance : IsTrans RawMatch confGe :=
  ⟨fun _ _ _ h1 h2 => le_trans h2 h1⟩

/-- Deduplication by `test_id`: keep the first occurrence of each id
(the input is sorted by confidence descending). -/
def dedupByTestId : List RawMatch → List Str → List RawMatch
  | [], _ => []
  | m :: rest, seen =>
    if m.test_id ∈ seen then dedupByTestId rest seen
    else m :: dedupByTestId rest (m.test_id :: seen)

/-- The multi-match post-processing of the model output (`aiService.js`,
`matchBugToTestCase` multi branch): validate each entry and apply the
threshold, sort by confidence descending, deduplicate by `test_id`, and fail
(`throw`) when nothing survives. -/
def processMultiMatches (testCases : List TestCase) (threshold : ℚ)
    (raw : List RawMatch) : Except Unit (List RawMatch) :=
  let validMatches := raw.filter
    (fun m => validateMatch m testCases && decide (m.confidence ≥ threshold))
  let deduplicated := dedupByTestId (List.insertionSort confGe validMatches) []
  if deduplicated.length = 0 then .error () else .ok deduplicated

/-- The engine's configuration slice (`config.openai`). -/
structure EngineConfig where
  enableMultiMatch : Bool
  multiMatchThreshold : ℚ
  confidenceThreshold : ℚ
deriving DecidableEq

/-- A match as returned by the engine.  `learned`/`autoMatched` are `false`
when the underlying JS object does not carry the field. -/
structure EngineMatch where
  test_id : Str
  case_id : Str
  title : Str
  confidence : ℚ
  reasoning : Str
  learned : Bool
  autoMatched : Bool
deriving DecidableEq

/-- A model-produced raw match as an engine match (no `learned` /
`autoMatched` fields on the JS object). -/
def rawToEngine (m : RawMatch) : EngineMatch :=
  { test_id := m.test_id, case_id := m.case_id, title := m.title
    confidence := m.confidence, reasoning := m.reasoning, learned := false
    autoMatched := false }

/-- A learned multi-match as an engine match. -/
def learnedToEngine (m : LearnedMatch) : EngineMatch :=
  { test_id := m.test_id, case_id := m.case_id, title := m.title
    confidence := m.confidence, reasoning := m.reasoning, learned := m.learned
    autoMatched := false }

/-- `matchBugToTestCase(bugData, testCases)` with the external effects made
explicit: the correction store's parsed contents are inputs, the reasoning
model's parsed response is the input `resp` (a transport failure, timeout or
JSON-parse failure would abort before the logic modelled here), and the
result is `.error` where the JS throws.  Single-match mode returns the one
match as a one-element list.  `aiPathFn` is the shared reasoning-model branch
(the code that runs when no usable learned match exists): the multi-match
validation pipeline when multi-match is enabled and the response carries a
`matches` array, else single-object validation. -/
def aiPathFn (cfg : EngineConfig) (testCases : List TestCase) (resp : AIResult) :
    Except Unit (List EngineMatch) :=
  match cfg.enableMultiMatch, resp with
  | true, .multi ms =>
    (processMultiMatches testCases cfg.multiMatchThreshold ms).map
      (fun l => l.map rawToEngine)
  | _, _ =>
    let m := respAsSingle resp
    if validateMatch m testCases then .ok [rawToEngine m]
    else .error ()

def matchBugToTestCase (cfg : EngineConfig) (corrections : List Correction)
    (recs : List MatchRecord) (bug : BugData) (testCases : List TestCase)
    (resp : AIResult) : Except Unit (List EngineMatch) :=
  let aiPath : Except Unit (List EngineMatch) := aiPathFn cfg testCases resp
  if cfg.enableMultiMatch = false then
    match findSimilarMatchCore bug corrections with
    | some lm =>
      .ok [{ test_id := lm.test_id, case_id := lm.case_id, title := lm.title
             confidence := lm.confidence
             reasoning := str "Learned from previous correction: " ++ lm.reasoning
             learned := true, autoMatched := false }]
    | none => aiPath
  else
    let learnedMatches := findSimilarMatchesCore bug corrections recs
    if learnedMatches.length > 0 then
      let validLearned := learnedMatches.filter
        (fun lm => testCases.any (fun tc => tc.test_id = lm.test_id))
      if validLearned.length = learnedMatches.length then
        .ok (validLearned.map learnedToEngine)
      else aiPath
    else aiPath

/-- `isConfidentMatch(matchResult)`. -/
def isConfidentMatch (cfg : EngineConfig) (m : EngineMatch) : Bool :=
  decide (m.confidence ≥ cfg.confidenceThreshold)

/-! ## Section/Title Pre-filter (`workflowService.extractCriterionFromTitle`,
`groupTestCasesBySection`, `findMatchesWithSectionFiltering`) -/

/-- Decimal rendering of an integer, for the `Section ${id}` fallback name. -/
def intToStr (i : Int) : Str := (toString i).data

/-- The ignore-list of `extractCriterionFromTitle`. -/
def ignoredCriterionWords : List Str :=
  [str "test", str "project", str "508c", str "bug", str "issue"]

/-- `extractCriterionFromTitle(title)`: the trimmed second pipe-delimited
segment, unless it is an ignored generic word.  An empty title is falsy. -/
def extractCriterionFromTitle (title : Str) : Option Str :=
  if title.isEmpty then none
  else
    let parts := (splitOnChar '|' title).map trimJS
    if h : 2 ≤ parts.length then
      let criterion := parts.get ⟨1, by omega⟩
      if jsToLower criterion ∈ ignoredCriterionWords then none else some criterion
    else none

/-- A section as returned by the test-management collaborator. -/
structure SectionInfo where
  id : Int
  name : Str
deriving DecidableEq

/-- One group of `groupTestCasesBySection`'s output. -/
structure SectionGroup where
  sectionId : Option Int
  sectionName : Str
  tests : List TestCase
deriving DecidableEq

/-- Resolve a section id to its name via the section map (`Map.set` keeps the
last entry for a duplicated id, hence the reversed lookup), falling back to
`Section ${id}`. -/
def sectionNameFor (sections : List SectionInfo) (sid : Int) : Str :=
  match sections.reverse.find? (fun s => s.id = sid) with
  | some s => s.name
  | none => str "Section " ++ intToStr sid

/-- The grouping key and display name of a test case (`null` section ids land
in the `Uncategorized` group). -/
def groupKeyName (sections : List SectionInfo) (t : TestCase) : Option Int × Str :=
  match t.section_id with
  | none => (none, str "Uncategorized")
  | some sid => (some sid, sectionNameFor sections sid)

/-- Append a test to its group (insertion order of groups preserved, as for a
JS `Map`), creating the group on first sight. -/
def addToGroups (gs : List SectionGroup) (key : Option Int) (name : Str)
    (t : TestCase) : List SectionGroup :=
  match gs with
  | [] => [⟨key, name, [t]⟩]
  | g :: rest =>
    if g.sectionId = key then ⟨g.sectionId, g.sectionName, g.tests ++ [t]⟩ :: rest
    else g :: addToGroups rest key name t

/-- `groupTestCasesBySection(testCases, runId)`: group by `section_id`; when
fetching the run or the sections throws, fall back to one `All Tests` group
holding every test case. -/
def groupTestCasesBySection (testCases : List TestCase)
    (sectionsRes : Except Unit (List SectionInfo)) : List SectionGroup :=
  match sectionsRes with
  | .error _ => [⟨none, str "All Tests", testCases⟩]
  | .ok sections =>
    testCases.foldl
      (fun gs t =>
        let kn := groupKeyName sections t
        addToGroups gs kn.1 kn.2 t) []

/-- The criterion actually used by `findMatchesWithSectionFiltering`
(`if (criterion)` — the empty string is falsy). -/
def prefilterCriterion (bug : BugData) : Option Str :=
  match extractCriterionFromTitle bug.summary with
  | some c => if c.isEmpty then none else some c
  | none => none

/-- The groups whose (lowercased) name contains the (lowercased)
criterion. -/
def prefilterMatching (criterion : Str) (testCases : List TestCase)
    (sectionsRes : Except Unit (List SectionInfo)) : List SectionGroup :=
  (groupTestCasesBySection testCases sectionsRes).filter
    (fun g => strContains (jsToLower criterion) (jsToLower g.sectionName))

/-- Flatten the matching groups back to a candidate list (`flatMap`). -/
def flattenGroups (gs : List SectionGroup) : List TestCase :=
  (gs.map (fun g => g.tests)).flatten

/-- The candidate list handed to the downstream matcher when no auto-match
fires: the flattened matching groups, or the original candidates when there
is no usable criterion or no section matches it. -/
def filteredCandidates (bug : BugData) (testCases : List TestCase)
    (sectionsRes : Except Unit (List SectionInfo)) : List TestCase :=
  match prefilterCriterion bug with
  | none => testCases
  | some c =>
    let matching := prefilterMatching c testCases sectionsRes
    if matching.length = 0 then testCases else flattenGroups matching

/-- The result of the pre-filter stage of `findMatchesWithSectionFiltering`:
either an auto-match (bypassing the reasoning model) or the candidate list to
delegate to `aiService.matchBugToTestCase`. -/
inductive PrefilterOutcome where
  | auto (m : EngineMatch)
  | delegate (cands : List TestCase)
deriving DecidableEq

/-- The auto-match built when exactly one candidate remains. -/
def autoMatchOf (t : TestCase) (g : SectionGroup) : EngineMatch :=
  { test_id := t.test_id, case_id := t.case_id, title := t.title
    confidence := 1
    reasoning := str "Auto-matched: Only test case in section \""
      ++ g.sectionName ++ str "\""
    learned := false, autoMatched := true }

/-- The pre-filter stage of `findMatchesWithSectionFiltering` (everything
before the `aiService.matchBugToTestCase` call). -/
def sectionPrefilter (bug : BugData) (testCases : List TestCase)
    (sectionsRes : Except Unit (List SectionInfo)) : PrefilterOutcome :=
  match prefilterCriterion bug with
  | none => .delegate testCases
  | some c =>
    let matching := prefilterMatching c testCases sectionsRes
    if matching.length = 0 then .delegate testCases
    else
      let filtered := flattenGroups matching
      if h : filtered.length = 1 then
        .auto (autoMatchOf (filtered.get ⟨0, by omega⟩) (matching.headD ⟨none, [], []⟩))
      else .delegate filtered

/-- `findMatchesWithSectionFiltering(bugData, testCases, runId)`: the
pre-filter either short-circuits with the auto-match, or the reasoning-model
matcher `ai` is invoked on the (possibly narrowed) candidate list; its list
result is paired with `autoMatched = false`. -/
def findMatchesWithSectionFiltering (bug : BugData) (testCases : List TestCase)
    (sectionsRes : Except Unit (List SectionInfo))
    (ai : List TestCase → Except Unit (List EngineMatch)) :
    Except Unit (List EngineMatch × Bool) :=
  match sectionPrefilter bug testCases sectionsRes with
  | .auto m => .ok ([m], true)
  | .delegate cands => (ai cands).map (fun ms => (ms, false))

/-! ## Open-Defect Gate (`workflowService.checkForOpenBugs`,
`getActiveBugs`, `markTestAsPassedIntelligently`) -/

/-- A historical test result as returned (newest first) by the
test-management collaborator; `defects` is the comma-separated defect string
(empty models `null`/absent, both falsy). -/
structure TestResult where
  status_id : Int
  defects : Str
deriving DecidableEq

/-- The slice of a fetched issue the gate reads. -/
structure IssueInfo where
  status : Str
  summary : Str
deriving DecidableEq

/-- An entry of `openBugs`. -/
structure OpenBug where
  key : Str
  status : Str
  summary : Str
deriving DecidableEq

/-- `checkForOpenBugs`'s result object; `totalBugsChecked` is absent
(`none`) on the early returns and on the error path. -/
structure OpenCheck where
  hasOpen : Bool
  openBugs : List OpenBug
  totalBugsChecked : Option Nat
deriving DecidableEq

/-- The defect keys of one result:
`defects.split(',').map(trim).filter(id => id)` when `defects` is truthy. -/
def parseDefects (defects : Str) : List Str :=
  if defects.isEmpty then []
  else ((splitOnChar ',' defects).map trimJS).filter (fun d => !d.isEmpty)

/-- The union (`Set`, first-insertion order) of the defect keys of every
historical result. -/
def collectAllBugIds (results : List TestResult) : List Str :=
  results.foldl (fun acc r => (parseDefects r.defects).foldl insertIfNew acc) []

/-- The configuration slice `checkForOpenBugs` reads
(`config.jira.statusOpen || 'Open'` and `config.jira.statusReadyForDev`). -/
structure JiraConfig where
  statusOpen : Str
  statusReadyForDev : Str
deriving DecidableEq

/-- The open-status list of `checkForOpenBugs`. -/
def openStatuses (cfg : JiraConfig) : List Str :=
  [if cfg.statusOpen.isEmpty then str "Open" else cfg.statusOpen,
   str "Reopened", cfg.statusReadyForDev]

/-- `checkForOpenBugs(testId, currentBugKey)` with the collaborators made
explicit: `resultsRes` is the (possibly throwing) result-history fetch,
`lookup` the per-defect issue fetch.  A failing fetch of the whole history is
caught by the outer `try/catch` and reported as one sentinel open bug; a
failing per-defect lookup classifies that defect as open with status
`Unknown`. -/
def checkForOpenBugs (resultsRes : Except Str (List TestResult))
    (lookup : Str → Except Unit IssueInfo) (cfg : JiraConfig)
    (currentBugKey : Str) : OpenCheck :=
  match resultsRes with
  | .error msg => ⟨true, [⟨str "Error", str "Unknown", msg⟩], none⟩
  | .ok results =>
    if results.length = 0 then ⟨false, [], none⟩
    else
      let bugIdArray := (collectAllBugIds results).filter (fun b => b ≠ currentBugKey)
      if bugIdArray.length = 0 then ⟨false, [], none⟩
      else
        let openBugs := bugIdArray.foldl
          (fun acc bugId =>
            match lookup bugId with
            | .ok issue =>
              if issue.status ∈ openStatuses cfg then
                acc ++ [⟨bugId, issue.status, issue.summary⟩]
              else acc
            | .error _ =>
              acc ++ [⟨bugId, str "Unknown", str "Could not retrieve bug details"⟩]) []
        ⟨decide (openBugs.length > 0), openBugs, some bugIdArray.length⟩

/-- The lowercased statuses `getActiveBugs` treats as active. -/
def activeStatuses : List Str :=
  [str "open", str "reopened", str "ready for dev"]

/-- `getActiveBugs(bugIds)`: keep the bugs whose status is active; a failing
lookup keeps the bug (assume active, to be safe). -/
def getActiveBugs (lookup : Str → Except Unit IssueInfo) (bugIds : List Str) :
    List Str :=
  bugIds.foldl
    (fun acc bugId =>
      match lookup bugId with
      | .ok issue =>
        if jsToLower issue.status ∈ activeStatuses then acc ++ [bugId] else acc
      | .error _ => acc ++ [bugId]) []

/-- `markTestAsPassedIntelligently`'s returned object (`activeBugs` is `[]`
and `skipped` is `false` when the JS object does not carry the field). -/
structure PassOutcome where
  status : Str
  message : Str
  skipped : Bool
  activeBugs : List Str
deriving DecidableEq

/-- Decimal rendering of a count, for message interpolation. -/
def natToStr (n : Nat) : Str := (toString n).data

/-- The result `markAsPassed` appends: TestRail status `1` (Passed), empty
defect list. -/
def passedResult : TestResult := ⟨1, []⟩

/-- The union of the defect keys over every result, minus the bug being
resolved (the collection loop skips `removedBugId` instead of adding it). -/
def collectOtherBugs (results : List TestResult) (removed : Str) : List Str :=
  results.foldl
    (fun acc r =>
      ((parseDefects r.defects).filter (fun b => b ≠ removed)).foldl insertIfNew acc) []

/-- Did any historical result's defect list contain the bug being
resolved? -/
def removedBugFound (results : List TestResult) (removed : Str) : Bool :=
  results.any (fun r => (parseDefects r.defects).any (fun b => b = removed))

/-- `markTestAsPassedIntelligently(testId, removedBugId, reason)`: the full
decision path on the fetched result history (newest first).  The second
component is the result appended by `markAsPassed` (`none` when no write
happens); the fetched history itself is never modified. -/
def markTestAsPassedIntelligently (testResults : List TestResult)
    (lookup : Str → Except Unit IssueInfo) (removedBugId : Str) :
    PassOutcome × Option TestResult :=
  if testResults.length = 0 then
    (⟨str "Passed", str "No test results found, cannot update", false, []⟩, none)
  else
    let latest := testResults.headD ⟨0, []⟩
    if latest.status_id = 1 then
      (⟨str "Passed", str "Test is already Passed, no update needed", true, []⟩, none)
    else
      let allOtherBugs := collectOtherBugs testResults removedBugId
      if !removedBugFound testResults removedBugId then
        (⟨str "Passed",
          str "Bug " ++ removedBugId ++ str " not found in test results",
          false, []⟩, none)
      else if allOtherBugs.length > 0 then
        let activeBugs := getActiveBugs lookup allOtherBugs
        if activeBugs.length > 0 then
          (⟨str "Failed",
            str "Test kept as Failed due to " ++ natToStr activeBugs.length
              ++ str " active bug(s): " ++ strJoin (str ", ") activeBugs,
            false, activeBugs⟩, none)
        else
          (⟨str "Passed", str "No active bugs remain, test marked as Passed",
            false, []⟩, some passedResult)
      else
        (⟨str "Passed", str "No active bugs remain, test marked as Passed",
          false, []⟩, some passedResult)

/-- The result history as fetched after a `markAsPassed` write: the new
result is the newest, the previous history is untouched. -/
def appendResult (w : TestResult) (results : List TestResult) : List TestResult :=
  w :: results

/-- The contribution of one bug id to `getActiveBugs`'s accumulator. -/
def activeContrib (lookup : Str → Except Unit IssueInfo) (bugId : Str) : List Str :=
  match lookup bugId with
  | .ok issue => if jsToLower issue.status ∈ activeStatuses then [bugId] else []
  | .error _ => [bugId]

/-- The contribution of one bug id to `checkForOpenBugs`'s `openBugs`. -/
def openContrib (lookup : Str → Except Unit IssueInfo) (cfg : JiraConfig)
    (bugId : Str) : List OpenBug :=
  match lookup bugId with
  | .ok issue =>
    if issue.status ∈ openStatuses cfg then [⟨bugId, issue.status, issue.summary⟩]
    else []
  | .error _ => [⟨bugId, str "Unknown", str "Could not retrieve bug details"⟩]

/-! ## Concrete fixtures used by claim witnesses and counterexamples -/

/-- A bug whose text is `search button broken`. -/
def exBugButton : BugData := ⟨str "B-2", str "search button broken", []⟩

/-- A stored correction for an identical bug text, pointing at test `999`. -/
def exCorrButton : Correction :=
  ⟨⟨str "B-1", str "search button broken", []⟩, str "999", str "900",
   str "Focus visibility test"⟩

/-- A bug classified `heading-missing` (contains `heading` and `missing`). -/
def exBugHeadingMissing : BugData := ⟨str "B-3", str "heading missing wrong level", []⟩

/-- A correction classified `heading-level` (contains `heading` and
`wrong level`, no missing pattern), pointing at test `99`. -/
def exCorrHeadingLevel : Correction :=
  ⟨⟨str "B-4", str "heading wrong level", []⟩, str "99", str "90",
   str "Heading level test"⟩

/-- A candidate list that contains neither test `999` nor test `99`. -/
def exCandidates : List TestCase := [⟨str "1", str "10", str "Some test", none⟩]

/-! ## General lemmas -/

theorem mem_insertIfNew [DecidableEq α] {acc : List α} {a x : α} :
    x ∈ insertIfNew acc a ↔ x ∈ acc ∨ x = a := by
  unfold insertIfNew
  split
  · rename_i h
    constructor
    · exact Or.inl
    · rintro (hx | rfl)
      · exact hx
      · exact h
  · simp [List.mem_append]

theorem mem_foldl_insertIfNew [DecidableEq α] (l acc : List α) (x : α) :
    x ∈ l.foldl insertIfNew acc ↔ x ∈ acc ∨ x ∈ l := by
  induction l generalizing acc with
  | nil => simp
  | cons a t ih =>
    simp only [List.foldl_cons, ih, mem_insertIfNew, List.mem_cons]
    tauto

theorem nodup_foldl_insertIfNew [DecidableEq α] (l : List α) (acc : List α)
    (h : acc.Nodup) : (l.foldl insertIfNew acc).Nodup := by
  induction l generalizing acc with
  | nil => exact h
  | cons a t ih =>
    apply ih
    unfold insertIfNew
    split
    · exact h
    · rename_i hna
      simp [List.nodup_append, h, hna]

theorem mem_dedupKeepFirst [DecidableEq α] (l : List α) (x : α) :
    x ∈ dedupKeepFirst l ↔ x ∈ l := by
  unfold dedupKeepFirst
  simp [mem_foldl_insertIfNew]

theorem nodup_dedupKeepFirst [DecidableEq α] (l : List α) :
    (dedupKeepFirst l).Nodup :=
  nodup_foldl_insertIfNew l [] List.nodup_nil

theorem mem_foldl_insertIfNew_flat {α β : Type} [DecidableEq β] (f : α → List β)
    (l : List α) (acc : List β) (x : β) :
    x ∈ l.foldl (fun acc r => (f r).foldl insertIfNew acc) acc ↔
      x ∈ acc ∨ ∃ r ∈ l, x ∈ f r := by
  induction l generalizing acc with
  | nil => simp
  | cons a t ih =>
    simp only [List.foldl_cons, ih, mem_foldl_insertIfNew, List.mem_cons]
    constructor
    · rintro (⟨h | h⟩ | ⟨r, hr, hx⟩)
      · exact Or.inl h
      · exact Or.inr ⟨a, Or.inl rfl, h⟩
      · exact Or.inr ⟨r, Or.inr hr, hx⟩
    · rintro (h | ⟨r, rfl | hr, hx⟩)
      · exact Or.inl (Or.inl h)
      · exact Or.inl (Or.inr hx)
      · exact Or.inr ⟨r, hr, hx⟩

theorem mem_collectAllBugIds (results : List TestResult) (x : Str) :
    x ∈ collectAllBugIds results ↔ ∃ r ∈ results, x ∈ parseDefects r.defects := by
  unfold collectAllBugIds
  simpa using
    mem_foldl_insertIfNew_flat (fun r : TestResult => parseDefects r.defects) results [] x

theorem mem_collectOtherBugs (results : List TestResult) (removed : Str) (x : Str) :
    x ∈ collectOtherBugs results removed ↔
      (∃ r ∈ results, x ∈ parseDefects r.defects) ∧ x ≠ removed := by
  unfold collectOtherBugs
  rw [mem_foldl_insertIfNew_flat
    (fun r : TestResult => (parseDefects r.defects).filter (fun b => b ≠ removed))
    results [] x]
  simp only [List.mem_filter, decide_eq_true_eq, List.not_mem_nil, false_or]
  tauto

theorem foldl_append_form {α β : Type} (h : α → List β) (l : List α) (acc : List β) :
    l.foldl (fun acc a => acc ++ h a) acc = acc ++ (l.map h).flatten := by
  induction l generalizing acc with
  | nil => simp
  | cons a t ih => simp [List.foldl_cons, ih, List.append_assoc]

theorem getActiveBugs_eq (lookup : Str → Except Unit IssueInfo) (bugIds : List Str) :
    getActiveBugs lookup bugIds = (bugIds.map (activeContrib lookup)).flatten := by
  unfold getActiveBugs
  have hfun : (fun (acc : List Str) (bugId : Str) =>
      match lookup bugId with
      | .ok issue =>
        if jsToLower issue.status ∈ activeStatuses then acc ++ [bugId] else acc
      | .error _ => acc ++ [bugId]) =
      fun acc a => acc ++ activeContrib lookup a := by
    funext acc a
    unfold activeContrib
    cases lookup a with
    | ok issue => by_cases h : jsToLower issue.status ∈ activeStatuses <;> simp [h]
    | error e => rfl
  rw [hfun, foldl_append_form]
  simp

theorem openBugs_fold_eq (lookup : Str → Except Unit IssueInfo) (cfg : JiraConfig)
    (bugIds : List Str) :
    bugIds.foldl
      (fun acc bugId =>
        match lookup bugId with
        | .ok issue =>
          if issue.status ∈ openStatuses cfg then
            acc ++ [⟨bugId, issue.status, issue.summary⟩]
          else acc
        | .error _ =>
          acc ++ [⟨bugId, str "Unknown", str "Could not retrieve bug details"⟩]) [] =
      (bugIds.map (openContrib lookup cfg)).flatten := by
  have hfun : (fun (acc : List OpenBug) (bugId : Str) =>
      match lookup bugId with
      | .ok issue =>
        if issue.status ∈ openStatuses cfg then
          acc ++ [⟨bugId, issue.status, issue.summary⟩]
        else acc
      | .error _ =>
        acc ++ [⟨bugId, str "Unknown", str "Could not retrieve bug details"⟩]) =
      fun acc a => acc ++ openContrib lookup cfg a := by
    funext acc a
    unfold openContrib
    cases lookup a with
    | ok issue => by_cases h : issue.status ∈ openStatuses cfg <;> simp [h]
    | error e => rfl
  rw [hfun, foldl_append_form]
  simp

/-! ## Claim theorems -/

/-- C10: if fetching the test's result history itself fails, `checkForOpenBugs`
returns `hasOpen = true` with a single sentinel entry (key `Error`, status
`Unknown`, the error message as summary) — the whole-operation failure
fail-safes toward blocking the passing transition. -/
theorem C10_historyFetchFailure_failsafe (msg : Str)
    (lookup : Str → Except Unit IssueInfo) (cfg : JiraConfig) (currentBugKey : Str) :
    checkForOpenBugs (.error msg) lookup cfg currentBugKey =
      ⟨true, [⟨str "Error", str "Unknown", msg⟩], none⟩ := rfl

/-- C10 witness: the fail-safe at a concrete failing fetch. -/
theorem C10_historyFetchFailure_failsafe_witness :
    checkForOpenBugs (.error (str "boom")) (fun _ => .error ())
      ⟨[], str "Ready for Dev"⟩ (str "ROLL-1") =
      ⟨true, [⟨str "Error", str "Unknown", str "boom"⟩], none⟩ :=
  C10_historyFetchFailure_failsafe (str "boom") (fun _ => .error ())
    ⟨[], str "Ready for Dev"⟩ (str "ROLL-1")

/-- C4: a defect identifier that remains after excluding the resolving bug and
whose status lookup throws is classified as open: it appears in `openBugs`
(status `Unknown`) and `hasOpen` is `true`; likewise `getActiveBugs` keeps a
bug whose lookup throws. -/
theorem C4_lookupFailure_classifiedOpen (results : List TestResult)
    (lookup : Str → Except Unit IssueInfo) (cfg : JiraConfig)
    (currentBugKey b : Str)
    (hb : b ∈ collectAllBugIds results) (hne : b ≠ currentBugKey)
    (hfail : lookup b = .error ()) :
    ((checkForOpenBugs (.ok results) lookup cfg currentBugKey).hasOpen = true ∧
      ∃ e ∈ (checkForOpenBugs (.ok results) lookup cfg currentBugKey).openBugs,
        e.key = b ∧ e.status = str "Unknown") ∧
    ∀ bugIds : List Str, b ∈ bugIds → b ∈ getActiveBugs lookup bugIds := by
  have hbarr : b ∈ (collectAllBugIds results).filter (fun x => x ≠ currentBugKey) := by
    rw [List.mem_filter]
    exact ⟨hb, by simpa using hne⟩
  have hres : ¬ results.length = 0 := by
    rcases (mem_collectAllBugIds results b).1 hb with ⟨r, hr, _⟩
    intro h0
    rw [List.length_eq_zero] at h0
    subst h0
    simp at hr
  have harr :
      ¬ ((collectAllBugIds results).filter (fun x => x ≠ currentBugKey)).length = 0 := by
    intro h0
    rw [List.length_eq_zero] at h0
    rw [h0] at hbarr
    simp at hbarr
  have hopen : (⟨b, str "Unknown", str "Could not retrieve bug details"⟩ : OpenBug) ∈
      (((collectAllBugIds results).filter (fun x => x ≠ currentBugKey)).map
        (openContrib lookup cfg)).flatten := by
    rw [List.mem_flatten]
    refine ⟨openContrib lookup cfg b, List.mem_map_of_mem _ hbarr, ?_⟩
    simp [openContrib, hfail]
  constructor
  · constructor
    · simp only [checkForOpenBugs, if_neg hres, if_neg harr, openBugs_fold_eq,
        decide_eq_true_eq]
      exact List.length_pos.mpr (List.ne_nil_of_mem hopen)
    · simp only [checkForOpenBugs, if_neg hres, if_neg harr, openBugs_fold_eq]
      exact ⟨_, hopen, rfl, rfl⟩
  · intro bugIds hmem
    rw [getActiveBugs_eq, List.mem_flatten]
    exact ⟨activeContrib lookup b, List.mem_map_of_mem _ hmem, by simp [activeContrib, hfail]⟩

/-- C4 witness: a concrete one-result history whose only other defect's
lookup throws. -/
theorem C4_lookupFailure_classifiedOpen_witness :
    (checkForOpenBugs (.ok [⟨5, str "ROLL-1"⟩]) (fun _ => .error ())
      ⟨[], str "Ready for Dev"⟩ (str "X")).hasOpen = true ∧
    ∃ e ∈ (checkForOpenBugs (.ok [⟨5, str "ROLL-1"⟩]) (fun _ => .error ())
      ⟨[], str "Ready for Dev"⟩ (str "X")).openBugs,
        e.key = str "ROLL-1" ∧ e.status = str "Unknown" :=
  (C4_lookupFailure_classifiedOpen [⟨5, str "ROLL-1"⟩] (fun _ => .error ())
    ⟨[], str "Ready for Dev"⟩ (str "X") (str "ROLL-1")
    (by decide) (by decide) rfl).1

/-- C3: the gate's defect set is the union of defect identifiers across every
historical result minus the resolving bug key — both for `checkForOpenBugs`'s
`bugIdArray` and for `markTestAsPassedIntelligently`'s `allOtherBugs` — and
when any remaining defect is active the passing transition is blocked with no
result of any kind appended. -/
theorem C3_unionMinusKey_and_blockedNoWrite (results : List TestResult)
    (lookup : Str → Except Unit IssueInfo) (resolvingBugKey b : Str) :
    (b ∈ (collectAllBugIds results).filter (fun x => x ≠ resolvingBugKey) ↔
      (∃ r ∈ results, b ∈ parseDefects r.defects) ∧ b ≠ resolvingBugKey) ∧
    (b ∈ collectOtherBugs results resolvingBugKey ↔
      (∃ r ∈ results, b ∈ parseDefects r.defects) ∧ b ≠ resolvingBugKey) ∧
    ((getActiveBugs lookup (collectOtherBugs results resolvingBugKey)).length > 0 →
      results.length ≠ 0 →
      (results.headD ⟨0, []⟩).status_id ≠ 1 →
      removedBugFound results resolvingBugKey = true →
      (markTestAsPassedIntelligently results lookup resolvingBugKey).2 = none ∧
      (markTestAsPassedIntelligently results lookup resolvingBugKey).1.status =
        str "Failed" ∧
      (markTestAsPassedIntelligently results lookup resolvingBugKey).1.activeBugs =
        getActiveBugs lookup (collectOtherBugs results resolvingBugKey)) := by
  refine ⟨?_, mem_collectOtherBugs results resolvingBugKey b, ?_⟩
  · rw [List.mem_filter, mem_collectAllBugIds]
    simp
  · intro hact hlen hlat hfound
    have hall : (collectOtherBugs results resolvingBugKey).length > 0 := by
      by_contra h0
      have hnil : collectOtherBugs results resolvingBugKey = [] :=
        List.length_eq_zero.mp (by omega)
      rw [hnil] at hact
      simp [getActiveBugs] at hact
    have hmark : markTestAsPassedIntelligently results lookup resolvingBugKey =
        (⟨str "Failed",
          str "Test kept as Failed due to "
            ++ natToStr (getActiveBugs lookup
                (collectOtherBugs results resolvingBugKey)).length
            ++ str " active bug(s): "
            ++ strJoin (str ", ")
                (getActiveBugs lookup (collectOtherBugs results resolvingBugKey)),
          false, getActiveBugs lookup (collectOtherBugs results resolvingBugKey)⟩,
          none) := by
      unfold markTestAsPassedIntelligently
      rw [if_neg hlen, if_neg hlat]
      simp only [hfound, Bool.not_true, Bool.false_eq_true, if_false]
      rw [if_pos hall, if_pos hact]
    rw [hmark]
    exact ⟨rfl, rfl, rfl⟩

/-- C3 witness: three historical results, resolving `ROLL-1396` while
`ROLL-1398` and `ROLL-1399` are `Ready for Dev`: the write is blocked. -/
theorem C3_unionMinusKey_and_blockedNoWrite_witness :
    (markTestAsPassedIntelligently
      [⟨5, str "ROLL-1396, ROLL-1398"⟩, ⟨5, str "ROLL-1399"⟩, ⟨5, str "ROLL-1396"⟩]
      (fun _ => .ok ⟨str "Ready for Dev", []⟩) (str "ROLL-1396")).2 = none ∧
    (markTestAsPassedIntelligently
      [⟨5, str "ROLL-1396, ROLL-1398"⟩, ⟨5, str "ROLL-1399"⟩, ⟨5, str "ROLL-1396"⟩]
      (fun _ => .ok ⟨str "Ready for Dev", []⟩) (str "ROLL-1396")).1.status =
      str "Failed" ∧
    (markTestAsPassedIntelligently
      [⟨5, str "ROLL-1396, ROLL-1398"⟩, ⟨5, str "ROLL-1399"⟩, ⟨5, str "ROLL-1396"⟩]
      (fun _ => .ok ⟨str "Ready for Dev", []⟩) (str "ROLL-1396")).1.activeBugs =
      getActiveBugs (fun _ => .ok ⟨str "Ready for Dev", []⟩)
        (collectOtherBugs
          [⟨5, str "ROLL-1396, ROLL-1398"⟩, ⟨5, str "ROLL-1399"⟩, ⟨5, str "ROLL-1396"⟩]
          (str "ROLL-1396")) :=
  (C3_unionMinusKey_and_blockedNoWrite
    [⟨5, str "ROLL-1396, ROLL-1398"⟩, ⟨5, str "ROLL-1399"⟩, ⟨5, str "ROLL-1396"⟩]
    (fun _ => .ok ⟨str "Ready for Dev", []⟩) (str "ROLL-1396") (str "ROLL-1398")).2.2
    (by decide) (by decide) (by decide) (by decide)

theorem markTest_write_shape (results : List TestResult)
    (lookup : Str → Except Unit IssueInfo) (removedBugId : Str) :
    (markTestAsPassedIntelligently results lookup removedBugId).2 = none ∨
    (markTestAsPassedIntelligently results lookup removedBugId).2 = some passedResult := by
  unfold markTestAsPassedIntelligently
  by_cases h1 : results.length = 0 <;>
    by_cases h2 : (results.head?.getD (⟨0, []⟩ : TestResult)).status_id = 1 <;>
    by_cases h3 : (!removedBugFound results removedBugId) = true <;>
    by_cases h4 : 0 < (collectOtherBugs results removedBugId).length <;>
    by_cases h5 : 0 < (getActiveBugs lookup (collectOtherBugs results removedBugId)).length <;>
    simp [List.headD_eq_head?, h1, h2, h3, h4, h5]

/-- C8 (counterexample): for a test with no result history whatsoever the
pass path appends nothing at all — there is no synthesized first pass; the
call reports `cannot update`. -/
theorem C8_counterexample_noHistory_noWrite :
    (markTestAsPassedIntelligently [] (fun _ => .error ()) (str "ROLL-1")).2 = none ∧
    (markTestAsPassedIntelligently [] (fun _ => .error ()) (str "ROLL-1")).1.message =
      str "No test results found, cannot update" := by
  decide

/-- C8 (amended): for a test with no result history the pass path writes
nothing and reports `cannot update`; and the already-passed short-circuit is
idempotent — any call that does perform the passing write leaves the latest
result `Passed`, so an immediately following call is a no-op reporting
already passed (the status write happens only once). -/
theorem C8_noHistoryNoWrite_and_idempotent :
    (∀ (lookup : Str → Except Unit IssueInfo) (removedBugId : Str),
      markTestAsPassedIntelligently [] lookup removedBugId =
        (⟨str "Passed", str "No test results found, cannot update", false, []⟩, none)) ∧
    (∀ (results : List TestResult) (lookup : Str → Except Unit IssueInfo)
        (removedBugId : Str) (w : TestResult),
      (markTestAsPassedIntelligently results lookup removedBugId).2 = some w →
      markTestAsPassedIntelligently (appendResult w results) lookup removedBugId =
        (⟨str "Passed", str "Test is already Passed, no update needed", true, []⟩,
          none)) := by
  constructor
  · intro lookup removedBugId
    rfl
  · intro results lookup removedBugId w hw
    have hshape := markTest_write_shape results lookup removedBugId
    have hwp : w = passedResult := by
      rcases hshape with h | h
      · rw [h] at hw
        exact absurd hw (by simp)
      · rw [h] at hw
        exact (Option.some_inj.mp hw).symm
    subst hwp
    unfold markTestAsPassedIntelligently
    simp [appendResult, passedResult]

/-- C8 witness: a concrete run of the idempotency half — the first call
writes the pass, the second is a no-op. -/
theorem C8_noHistoryNoWrite_and_idempotent_witness :
    markTestAsPassedIntelligently
      (appendResult passedResult [⟨5, str "ROLL-1"⟩])
      (fun _ => .ok ⟨str "Done", []⟩) (str "ROLL-1") =
      (⟨str "Passed", str "Test is already Passed, no update needed", true, []⟩,
        none) :=
  C8_noHistoryNoWrite_and_idempotent.2 [⟨5, str "ROLL-1"⟩]
    (fun _ => .ok ⟨str "Done", []⟩) (str "ROLL-1") passedResult (by decide)

/-- C9 (counterexample): with learning enabled and a corrupt matches file,
`storeMatch` returns normally but does record the new entry — the corrupt
content is replaced by a one-element list — contradicting "return normally
without recording anything". -/
theorem C9_counterexample_storeMatch_records :
    storeMatch true FileState.corrupt ⟨none, none⟩ true =
      FileState.stored [⟨none, none⟩] ∧
    loadMatches (storeMatch true FileState.corrupt ⟨none, none⟩ true) =
      [(⟨none, none⟩ : MatchRecord)] := by
  decide

/-- C9 (amended): every Correction Store operation absorbs internal failures
instead of raising (all the modelled operations are total, with the
`try/catch` branches explicit).  With a missing or corrupt backing file,
`findSimilarMatch` returns `none`, `findSimilarMatches` and
`getTestCasesByBugKey` return `[]`; `storeMatch`/`storeCorrection` return
normally, but rather than recording nothing they replace the unreadable
content with a one-element list holding the new record (when learning is
enabled and the write succeeds); only a failing write leaves the file
unchanged. -/
theorem C9_storeFailures_absorbed :
    (∀ (bug : BugData) (fs : FileState (List Correction)),
      fs = .missing ∨ fs = .corrupt → findSimilarMatchFS fs bug = none) ∧
    (∀ (bug : BugData) (fsC : FileState (List Correction))
        (fsM : FileState (List MatchRecord)),
      fsC = .missing ∨ fsC = .corrupt → fsM = .missing ∨ fsM = .corrupt →
      findSimilarMatchesFS fsC fsM bug = []) ∧
    (∀ (key : Str) (fsM : FileState (List MatchRecord))
        (fsC : FileState (List Correction)),
      fsM = .missing ∨ fsM = .corrupt → fsC = .missing ∨ fsC = .corrupt →
      getTestCasesByBugKey fsM fsC key = []) ∧
    (∀ (enabled : Bool) (fs : FileState (List MatchRecord)) (r : MatchRecord),
      fs = .missing ∨ fs = .corrupt →
      storeMatch enabled fs r true = if enabled then .stored [r] else fs) ∧
    (∀ (enabled : Bool) (fs : FileState (List MatchRecord)) (r : MatchRecord),
      storeMatch enabled fs r false = fs) ∧
    (∀ (enabled : Bool) (fs : FileState (List Correction)) (c : Correction),
      fs = .missing ∨ fs = .corrupt →
      storeCorrection enabled fs c true = if enabled then .stored [c] else fs) ∧
    (∀ (enabled : Bool) (fs : FileState (List Correction)) (c : Correction),
      storeCorrection enabled fs c false = fs) := by
  refine ⟨?_, ?_, ?_, ?_, ?_, ?_, ?_⟩
  · rintro bug fs (rfl | rfl) <;> rfl
  · rintro bug fsC fsM (rfl | rfl) (rfl | rfl) <;> rfl
  · rintro key fsM fsC (rfl | rfl) (rfl | rfl) <;> rfl
  · rintro enabled fs r (rfl | rfl) <;> cases enabled <;> rfl
  · intro enabled fs r
    cases enabled <;> rfl
  · rintro enabled fs c (rfl | rfl) <;> cases enabled <;> rfl
  · intro enabled fs c
    cases enabled <;> rfl

/-- C9 witness: the absorbed failures at concrete corrupt stores. -/
theorem C9_storeFailures_absorbed_witness :
    findSimilarMatchFS FileState.corrupt ⟨str "B-1", str "bug", []⟩ = none ∧
    findSimilarMatchesFS FileState.missing FileState.corrupt
      ⟨str "B-1", str "bug", []⟩ = [] ∧
    getTestCasesByBugKey FileState.corrupt FileState.missing (str "B-1") = [] ∧
    storeMatch true FileState.missing ⟨none, none⟩ false = FileState.missing :=
  ⟨C9_storeFailures_absorbed.1 ⟨str "B-1", str "bug", []⟩ FileState.corrupt (Or.inr rfl),
   C9_storeFailures_absorbed.2.1 ⟨str "B-1", str "bug", []⟩ FileState.missing
     FileState.corrupt (Or.inl rfl) (Or.inr rfl),
   C9_storeFailures_absorbed.2.2.1 (str "B-1") FileState.corrupt FileState.missing
     (Or.inr rfl) (Or.inl rfl),
   C9_storeFailures_absorbed.2.2.2.2.1 true FileState.missing ⟨none, none⟩⟩

theorem dedup_inter_length_le (s1 s2 : List Str) :
    (dedupKeepFirst (s1.filter (fun x => x ∈ s2))).length ≤
      (dedupKeepFirst (s1 ++ s2)).length := by
  have h1 := nodup_dedupKeepFirst (s1.filter (fun x => x ∈ s2))
  have h2 := nodup_dedupKeepFirst (s1 ++ s2)
  rw [← List.toFinset_card_of_nodup h1, ← List.toFinset_card_of_nodup h2]
  apply Finset.card_le_card
  intro x hx
  rw [List.mem_toFinset, mem_dedupKeepFirst, List.mem_filter] at hx
  rw [List.mem_toFinset, mem_dedupKeepFirst]
  exact List.mem_append_left s2 hx.1

theorem calculateKeywordMatch_nonneg (s1 s2 : List Str) :
    0 ≤ calculateKeywordMatch s1 s2 := by
  simp only [calculateKeywordMatch]
  split
  · exact le_refl 0
  · positivity

theorem calculateKeywordMatch_le_one (s1 s2 : List Str) :
    calculateKeywordMatch s1 s2 ≤ 1 := by
  simp only [calculateKeywordMatch]
  split
  · exact zero_le_one
  · rename_i h
    rw [div_le_one (by positivity)]
    exact_mod_cast dedup_inter_length_le s1 s2

theorem findSimilarScan_eq_find (bugKw : List Str) (cs : List Correction) :
    findSimilarScan bugKw cs =
      (cs.find? (fun c => decide (scoreAgainstCorrection bugKw c > 0.6))).map
        (fun c => synthSingle c (scoreAgainstCorrection bugKw c)) := by
  induction cs with
  | nil => rfl
  | cons c rest ih =>
    unfold findSimilarScan
    by_cases h : scoreAgainstCorrection bugKw c > 0.6
    · simp [List.find?, h]
    · simp [List.find?, h, ih]

/-- C7: `findSimilarMatch` scans the stored corrections newest-first
(i.e. the reversed append-order list) and maps the first correction whose
keyword score exceeds `0.6` to a synthesized match carrying that
correction's test id, case id and title with confidence exactly
`0.85 + 0.15 * score`, which lies in `[0.85, 1]`; it returns `none` when no
correction clears the threshold. -/
theorem C7_findSimilarMatch_spec (bug : BugData) (corrections : List Correction) :
    findSimilarMatchCore bug corrections =
      ((corrections.reverse.find? (fun c =>
          decide (scoreAgainstCorrection (extractKeywords (bugText bug)) c > 0.6))).map
        (fun c => synthSingle c (scoreAgainstCorrection (extractKeywords (bugText bug)) c))) ∧
    ∀ m, findSimilarMatchCore bug corrections = some m →
      ∃ c ∈ corrections,
        scoreAgainstCorrection (extractKeywords (bugText bug)) c > 0.6 ∧
        m.test_id = c.correct_test_id ∧ m.case_id = c.correct_case_id ∧
        m.title = c.correct_title ∧
        m.confidence =
          0.85 + 0.15 * scoreAgainstCorrection (extractKeywords (bugText bug)) c ∧
        0.85 ≤ m.confidence ∧ m.confidence ≤ 1 := by
  have heq : findSimilarMatchCore bug corrections =
      ((corrections.reverse.find? (fun c =>
          decide (scoreAgainstCorrection (extractKeywords (bugText bug)) c > 0.6))).map
        (fun c => synthSingle c (scoreAgainstCorrection (extractKeywords (bugText bug)) c))) := by
    unfold findSimilarMatchCore
    by_cases h : corrections.length = 0
    · rw [if_pos h]
      rw [List.length_eq_zero] at h
      subst h
      rfl
    · rw [if_neg h, findSimilarScan_eq_find]
  refine ⟨heq, ?_⟩
  intro m hm
  rw [heq] at hm
  rcases Option.map_eq_some'.mp hm with ⟨c, hfind, hsynth⟩
  have hmem : c ∈ corrections := by
    have := List.mem_of_find?_eq_some hfind
    simpa using this
  have hscore : scoreAgainstCorrection (extractKeywords (bugText bug)) c > 0.6 := by
    have := List.find?_some hfind
    simpa using this
  have h0 : 0 ≤ scoreAgainstCorrection (extractKeywords (bugText bug)) c :=
    calculateKeywordMatch_nonneg _ _
  have h1 : scoreAgainstCorrection (extractKeywords (bugText bug)) c ≤ 1 :=
    calculateKeywordMatch_le_one _ _
  refine ⟨c, hmem, hscore, ?_, ?_, ?_, ?_, ?_, ?_⟩
  · rw [← hsynth]; rfl
  · rw [← hsynth]; rfl
  · rw [← hsynth]; rfl
  · rw [← hsynth]
    show (0.85 : ℚ) + scoreAgainstCorrection (extractKeywords (bugText bug)) c * 0.15 = _
    ring
  · rw [← hsynth]
    show (0.85 : ℚ) ≤ 0.85 + scoreAgainstCorrection (extractKeywords (bugText bug)) c * 0.15
    nlinarith
  · rw [← hsynth]
    show (0.85 : ℚ) + scoreAgainstCorrection (extractKeywords (bugText bug)) c * 0.15 ≤ 1
    nlinarith

/-- C7 witness: a concrete store with one correction whose keyword score
against the incoming bug is `1`. -/
theorem C7_findSimilarMatch_spec_witness :
    ∃ m, findSimilarMatchCore exBugButton [exCorrButton] = some m ∧
      ∃ c ∈ [exCorrButton],
        scoreAgainstCorrection (extractKeywords (bugText exBugButton)) c > 0.6 ∧
        m.test_id = c.correct_test_id ∧ m.case_id = c.correct_case_id ∧
        m.title = c.correct_title ∧
        m.confidence =
          0.85 + 0.15 * scoreAgainstCorrection (extractKeywords (bugText exBugButton)) c ∧
        0.85 ≤ m.confidence ∧ m.confidence ≤ 1 := by
  have hi : (dedupKeepFirst ((extractKeywords (bugText exBugButton)).filter
      (fun x => x ∈ extractKeywords (bugText exCorrButton.bug)))).length = 3 := by
    decide
  have hu : (dedupKeepFirst ((extractKeywords (bugText exBugButton)) ++
      extractKeywords (bugText exCorrButton.bug))).length = 3 := by
    decide
  have hs : scoreAgainstCorrection (extractKeywords (bugText exBugButton)) exCorrButton = 1 := by
    simp only [scoreAgainstCorrection, calculateKeywordMatch, hi, hu]
    norm_num
  have hp : (decide (scoreAgainstCorrection
      (extractKeywords (bugText exBugButton)) exCorrButton > 0.6)) = true := by
    rw [decide_eq_true_eq, hs]
    norm_num
  have hm : findSimilarMatchCore exBugButton [exCorrButton] =
      some (synthSingle exCorrButton
        (scoreAgainstCorrection (extractKeywords (bugText exBugButton)) exCorrButton)) := by
    rw [(C7_findSimilarMatch_spec exBugButton [exCorrButton]).1]
    simp only [List.reverse_singleton, List.find?, hp, Option.map_some']
  exact ⟨_, hm, (C7_findSimilarMatch_spec exBugButton [exCorrButton]).2 _ hm⟩

theorem corrTier_sound (bt : IssueType) (kw : List Str) (cs : List Correction)
    (seen : List Str) :
    ∀ m ∈ (corrTier bt kw cs seen).1,
      ∃ c ∈ cs, m.test_id = c.correct_test_id ∧
        issueTypeGate bt (detectIssueType (bugText c.bug)) = true ∧
        scoreAgainstCorrection kw c > 0.5 := by
  induction cs generalizing seen with
  | nil =>
    intro m hm
    simp [corrTier] at hm
  | cons c rest ih =>
    intro m hm
    simp only [corrTier] at hm
    by_cases hg : (!issueTypeGate bt (detectIssueType (bugText c.bug))) = true
    · rw [if_pos hg] at hm
      rcases ih seen m hm with ⟨c2, hc2, h⟩
      exact ⟨c2, List.mem_cons_of_mem c hc2, h⟩
    · rw [if_neg hg] at hm
      have hgate : issueTypeGate bt (detectIssueType (bugText c.bug)) = true := by
        simpa using hg
      by_cases hsc : scoreAgainstCorrection kw c > 0.5
      · rw [if_pos hsc] at hm
        by_cases hseen : c.correct_test_id ∈ seen
        · rw [if_pos hseen] at hm
          rcases ih seen m hm with ⟨c2, hc2, h⟩
          exact ⟨c2, List.mem_cons_of_mem c hc2, h⟩
        · rw [if_neg hseen] at hm
          rcases List.mem_cons.mp hm with rfl | hm2
          · exact ⟨c, List.mem_cons_self c rest, rfl, hgate, hsc⟩
          · rcases ih _ m hm2 with ⟨c2, hc2, h⟩
            exact ⟨c2, List.mem_cons_of_mem c hc2, h⟩
      · rw [if_neg hsc] at hm
        rcases ih seen m hm with ⟨c2, hc2, h⟩
        exact ⟨c2, List.mem_cons_of_mem c hc2, h⟩

theorem recTier_sound (bt : IssueType) (kw : List Str) (rs : List MatchRecord)
    (seen : List Str) :
    ∀ m ∈ (recTier bt kw rs seen).1,
      ∃ r ∈ rs, ∃ rbug rm, r.bug = some rbug ∧ r.mtch = some rm ∧
        m.test_id = rm.test_id ∧
        issueTypeGate bt (detectIssueType (bugText rbug)) = true ∧
        calculateKeywordMatch kw (extractKeywords (bugText rbug)) > 0.5 := by
  induction rs generalizing seen with
  | nil =>
    intro m hm
    simp [recTier] at hm
  | cons r rest ih =>
    intro m hm
    rcases r with ⟨rb, rmt⟩
    rcases rb with _ | rbug <;> rcases rmt with _ | rm <;> simp only [recTier] at hm
    · rcases ih seen m hm with ⟨r2, hr2, h⟩
      exact ⟨r2, List.mem_cons_of_mem _ hr2, h⟩
    · rcases ih seen m hm with ⟨r2, hr2, h⟩
      exact ⟨r2, List.mem_cons_of_mem _ hr2, h⟩
    · rcases ih seen m hm with ⟨r2, hr2, h⟩
      exact ⟨r2, List.mem_cons_of_mem _ hr2, h⟩
    · by_cases hg : (!issueTypeGate bt (detectIssueType (bugText rbug))) = true
      · rw [if_pos hg] at hm
        rcases ih seen m hm with ⟨r2, hr2, h⟩
        exact ⟨r2, List.mem_cons_of_mem _ hr2, h⟩
      · rw [if_neg hg] at hm
        have hgate : issueTypeGate bt (detectIssueType (bugText rbug)) = true := by
          simpa using hg
        by_cases hsc : calculateKeywordMatch kw (extractKeywords (bugText rbug)) > 0.5
        · rw [if_pos hsc] at hm
          by_cases hseen : rm.test_id ∈ seen
          · rw [if_pos hseen] at hm
            rcases ih seen m hm with ⟨r2, hr2, h⟩
            exact ⟨r2, List.mem_cons_of_mem _ hr2, h⟩
          · rw [if_neg hseen] at hm
            rcases List.mem_cons.mp hm with rfl | hm2
            · exact ⟨⟨some rbug, some rm⟩, List.mem_cons_self _ rest, rbug, rm,
                rfl, rfl, rfl, hgate, hsc⟩
            · rcases ih _ m hm2 with ⟨r2, hr2, h⟩
              exact ⟨r2, List.mem_cons_of_mem _ hr2, h⟩
        · rw [if_neg hsc] at hm
          rcases ih seen m hm with ⟨r2, hr2, h⟩
          exact ⟨r2, List.mem_cons_of_mem _ hr2, h⟩

/-- C2 (amended): the category gate exists only in the multi-match search
`findSimilarMatches` — every learned match it returns arises from a
correction or a match record whose classified category passes the gate,
i.e. either the bug's category is `unknown`, or the source's category is
`unknown`, or the two are equal.  (In particular a correction classified
`heading-level` is never returned by `findSimilarMatches` for a bug
classified `heading-missing`, regardless of keyword overlap.)  The
single-match search `findSimilarMatch` applies no category gate — see the
counterexample. -/
theorem C2_categoryGate_inMultiMatchOnly (bug : BugData)
    (corrections : List Correction) (recs : List MatchRecord) :
    (∀ bt ct : IssueType, issueTypeGate bt ct = true ↔
      (bt = IssueType.unknown ∨ ct = IssueType.unknown ∨ bt = ct)) ∧
    ∀ m ∈ findSimilarMatchesCore bug corrections recs,
      (∃ c ∈ corrections, m.test_id = c.correct_test_id ∧
        issueTypeGate (detectIssueType (bugText bug))
          (detectIssueType (bugText c.bug)) = true ∧
        scoreAgainstCorrection (extractKeywords (bugText bug)) c > 0.5) ∨
      (∃ r ∈ recs, ∃ rbug rm, r.bug = some rbug ∧ r.mtch = some rm ∧
        m.test_id = rm.test_id ∧
        issueTypeGate (detectIssueType (bugText bug))
          (detectIssueType (bugText rbug)) = true ∧
        calculateKeywordMatch (extractKeywords (bugText bug))
          (extractKeywords (bugText rbug)) > 0.5) := by
  constructor
  · intro bt ct
    cases bt <;> cases ct <;> decide
  · intro m hm
    simp only [findSimilarMatchesCore] at hm
    by_cases h0 : corrections.length = 0 ∧ recs.length = 0
    · rw [if_pos h0] at hm
      simp at hm
    · rw [if_neg h0] at hm
      rcases List.mem_append.mp hm with hc | hr
      · rcases corrTier_sound _ _ _ _ m hc with ⟨c, hcmem, h⟩
        exact Or.inl ⟨c, by simpa using hcmem, h⟩
      · rcases recTier_sound _ _ _ _ m hr with ⟨r, hrmem, h⟩
        exact Or.inr ⟨r, by simpa using hrmem, h⟩

/-- C2 (counterexample): `findSimilarMatch` (single-match mode) applies no
category gating — a correction classified `heading-level` is returned as the
learned match for a bug classified `heading-missing` once the keyword score
(here `3/4`) clears `0.6`, contradicting the claim that the gate covers
`findSimilarMatch`. -/
theorem C2_counterexample_singleMode_noGate :
    detectIssueType (bugText exBugHeadingMissing) = IssueType.headingMissing ∧
    detectIssueType (bugText exCorrHeadingLevel.bug) = IssueType.headingLevel ∧
    ∃ m, findSimilarMatchCore exBugHeadingMissing [exCorrHeadingLevel] = some m ∧
      m.test_id = exCorrHeadingLevel.correct_test_id := by
  refine ⟨by decide, by decide, ?_⟩
  have hi : (dedupKeepFirst ((extractKeywords (bugText exBugHeadingMissing)).filter
      (fun x => x ∈ extractKeywords (bugText exCorrHeadingLevel.bug)))).length = 3 := by
    decide
  have hu : (dedupKeepFirst ((extractKeywords (bugText exBugHeadingMissing)) ++
      extractKeywords (bugText exCorrHeadingLevel.bug))).length = 4 := by
    decide
  have hs : scoreAgainstCorrection (extractKeywords (bugText exBugHeadingMissing))
      exCorrHeadingLevel = 3 / 4 := by
    simp only [scoreAgainstCorrection, calculateKeywordMatch, hi, hu]
    norm_num
  have hp : (decide (scoreAgainstCorrection
      (extractKeywords (bugText exBugHeadingMissing)) exCorrHeadingLevel > 0.6)) = true := by
    rw [decide_eq_true_eq, hs]
    norm_num
  have hrun : findSimilarMatchCore exBugHeadingMissing [exCorrHeadingLevel] =
      some (synthSingle exCorrHeadingLevel
        (scoreAgainstCorrection (extractKeywords (bugText exBugHeadingMissing))
          exCorrHeadingLevel)) := by
    unfold findSimilarMatchCore
    rw [if_neg (by decide)]
    rw [findSimilarScan_eq_find]
    simp only [List.reverse_singleton, List.find?, hp, Option.map_some']
  exact ⟨_, hrun, rfl⟩

/-- C2 witness: a gate-passing concrete run of the multi-match search — the
bug and the stored correction share their text (both classified `unknown`),
so the correction's test is proposed and the provenance property applies. -/
theorem C2_categoryGate_inMultiMatchOnly_witness :
    ∃ m ∈ findSimilarMatchesCore exBugButton [exCorrButton] [],
      (∃ c ∈ [exCorrButton], m.test_id = c.correct_test_id ∧
        issueTypeGate (detectIssueType (bugText exBugButton))
          (detectIssueType (bugText c.bug)) = true ∧
        scoreAgainstCorrection (extractKeywords (bugText exBugButton)) c > 0.5) ∨
      (∃ r ∈ ([] : List MatchRecord), ∃ rbug rm, r.bug = some rbug ∧ r.mtch = some rm ∧
        m.test_id = rm.test_id ∧
        issueTypeGate (detectIssueType (bugText exBugButton))
          (detectIssueType (bugText rbug)) = true ∧
        calculateKeywordMatch (extractKeywords (bugText exBugButton))
          (extractKeywords (bugText rbug)) > 0.5) := by
  have hgate : (!issueTypeGate (detectIssueType (bugText exBugButton))
      (detectIssueType (bugText exCorrButton.bug))) = false := by decide
  have hi : (dedupKeepFirst ((extractKeywords (bugText exBugButton)).filter
      (fun x => x ∈ extractKeywords (bugText exCorrButton.bug)))).length = 3 := by
    decide
  have hu : (dedupKeepFirst ((extractKeywords (bugText exBugButton)) ++
      extractKeywords (bugText exCorrButton.bug))).length = 3 := by
    decide
  have hs : scoreAgainstCorrection (extractKeywords (bugText exBugButton)) exCorrButton = 1 := by
    simp only [scoreAgainstCorrection, calculateKeywordMatch, hi, hu]
    norm_num
  have hsc : scoreAgainstCorrection (extractKeywords (bugText exBugButton)) exCorrButton > 0.5 := by
    rw [hs]
    norm_num
  have hout : findSimilarMatchesCore exBugButton [exCorrButton] [] =
      [⟨exCorrButton.correct_test_id, exCorrButton.correct_case_id,
        exCorrButton.correct_title,
        0.85 + scoreAgainstCorrection (extractKeywords (bugText exBugButton))
          exCorrButton * 0.15,
        str "Learned from correction of similar bug: \""
          ++ exCorrButton.bug.summary ++ str "\"", true⟩] := by
    simp only [findSimilarMatchesCore]
    rw [if_neg (by decide)]
    simp only [List.reverse_singleton, List.reverse_nil, corrTier, recTier, hgate,
      Bool.false_eq_true, if_false, if_pos hsc, List.not_mem_nil, List.append_nil]
  have hmem : (⟨exCorrButton.correct_test_id, exCorrButton.correct_case_id,
      exCorrButton.correct_title,
      0.85 + scoreAgainstCorrection (extractKeywords (bugText exBugButton))
        exCorrButton * 0.15,
      str "Learned from correction of similar bug: \""
        ++ exCorrButton.bug.summary ++ str "\"", true⟩ : LearnedMatch) ∈
      findSimilarMatchesCore exBugButton [exCorrButton] [] := by
    rw [hout]
    exact List.mem_singleton.mpr rfl
  exact ⟨_, hmem,
    (C2_categoryGate_inMultiMatchOnly exBugButton [exCorrButton] []).2 _ hmem⟩

theorem addToGroups_tests_sub (gs : List SectionGroup) (k : Option Int) (n : Str)
    (t : TestCase) :
    ∀ g ∈ addToGroups gs k n t, ∀ x ∈ g.tests,
      (∃ g0 ∈ gs, x ∈ g0.tests) ∨ x = t := by
  induction gs with
  | nil =>
    intro g hg x hx
    simp only [addToGroups, List.mem_singleton] at hg
    subst hg
    simp only [List.mem_singleton] at hx
    exact Or.inr hx
  | cons g0 rest ih =>
    intro g hg x hx
    simp only [addToGroups] at hg
    by_cases hk : g0.sectionId = k
    · rw [if_pos hk] at hg
      rcases List.mem_cons.mp hg with rfl | hg2
      · rcases List.mem_append.mp hx with h | h
        · exact Or.inl ⟨g0, List.mem_cons_self _ _, h⟩
        · exact Or.inr (List.mem_singleton.mp h)
      · exact Or.inl ⟨g, List.mem_cons_of_mem _ hg2, hx⟩
    · rw [if_neg hk] at hg
      rcases List.mem_cons.mp hg with rfl | hg2
      · exact Or.inl ⟨g, List.mem_cons_self _ _, hx⟩
      · rcases ih g hg2 x hx with ⟨g1, hg1, hx1⟩ | h
        · exact Or.inl ⟨g1, List.mem_cons_of_mem _ hg1, hx1⟩
        · exact Or.inr h

theorem foldl_addToGroups_sub (sections : List SectionInfo) (l : List TestCase)
    (gs : List SectionGroup) (P : TestCase → Prop)
    (hgs : ∀ g ∈ gs, ∀ x ∈ g.tests, P x) (hl : ∀ t ∈ l, P t) :
    ∀ g ∈ l.foldl
        (fun gs t =>
          let kn := groupKeyName sections t
          addToGroups gs kn.1 kn.2 t) gs,
      ∀ x ∈ g.tests, P x := by
  induction l generalizing gs with
  | nil => exact hgs
  | cons t rest ih =>
    intro g hg x hx
    refine ih _ ?_ (fun u hu => hl u (List.mem_cons_of_mem _ hu)) g hg x hx
    intro g2 hg2 x2 hx2
    rcases addToGroups_tests_sub gs _ _ t g2 hg2 x2 hx2 with ⟨g0, hg0, hx0⟩ | rfl
    · exact hgs g0 hg0 x2 hx0
    · exact hl _ (List.mem_cons_self _ _)

theorem groupTestCasesBySection_tests_sub (tcs : List TestCase)
    (secs : Except Unit (List SectionInfo)) :
    ∀ g ∈ groupTestCasesBySection tcs secs, ∀ x ∈ g.tests, x ∈ tcs := by
  cases secs with
  | error e =>
    intro g hg x hx
    simp only [groupTestCasesBySection, List.mem_singleton] at hg
    subst hg
    exact hx
  | ok sections =>
    exact foldl_addToGroups_sub sections tcs [] (fun x => x ∈ tcs)
      (by intro g hg; simp at hg) (fun t ht => ht)

theorem mem_flattenGroups (gs : List SectionGroup) (x : TestCase) :
    x ∈ flattenGroups gs ↔ ∃ g ∈ gs, x ∈ g.tests := by
  simp [flattenGroups, List.mem_flatten]

/-- C6: the Section/Title Pre-filter returns an auto-match (one match with
confidence exactly `1` and `autoMatched = true`, bypassing the
reasoning-model call) if and only if the section filtering step applies
(a usable criterion exists and at least one section group matches it) and
leaves exactly one candidate; otherwise it delegates, and the downstream
matcher receives `filteredCandidates` — the flattened matching groups, or
the original unfiltered list when no usable criterion exists or no section
matches it (a grouping failure collapses to the fallback `All Tests` group
over the original list). -/
theorem C6_prefilter_automatch_iff (bug : BugData) (tcs : List TestCase)
    (secs : Except Unit (List SectionInfo)) :
    ((∃ m, sectionPrefilter bug tcs secs = .auto m) ↔
      ∃ c, prefilterCriterion bug = some c ∧
        (prefilterMatching c tcs secs).length ≠ 0 ∧
        (flattenGroups (prefilterMatching c tcs secs)).length = 1) ∧
    (∀ m, sectionPrefilter bug tcs secs = .auto m →
      m.confidence = 1 ∧ m.autoMatched = true ∧
      ∃ c, prefilterCriterion bug = some c ∧
        ∃ t, flattenGroups (prefilterMatching c tcs secs) = [t] ∧
          m.test_id = t.test_id ∧ t ∈ tcs) ∧
    (∀ cands, sectionPrefilter bug tcs secs = .delegate cands →
      cands = filteredCandidates bug tcs secs ∧
      ∀ c, prefilterCriterion bug = some c →
        (prefilterMatching c tcs secs).length ≠ 0 → cands.length ≠ 1) ∧
    (∀ m, sectionPrefilter bug tcs secs = .auto m → ∀ ai,
      findMatchesWithSectionFiltering bug tcs secs ai = .ok ([m], true)) := by
  have hbypass : ∀ m, sectionPrefilter bug tcs secs = .auto m → ∀ ai,
      findMatchesWithSectionFiltering bug tcs secs ai = .ok ([m], true) := by
    intro m hm ai
    unfold findMatchesWithSectionFiltering
    rw [hm]
  rcases hcrit : prefilterCriterion bug with _ | c
  · have hsp : sectionPrefilter bug tcs secs = .delegate tcs := by
      unfold sectionPrefilter
      rw [hcrit]
    have hfc : filteredCandidates bug tcs secs = tcs := by
      unfold filteredCandidates
      rw [hcrit]
    refine ⟨?_, ?_, ?_, hbypass⟩
    · constructor
      · rintro ⟨m, hm⟩
        rw [hsp] at hm
        exact PrefilterOutcome.noConfusion hm
      · rintro ⟨c, hc, _⟩
        exact Option.noConfusion hc
    · intro m hm
      rw [hsp] at hm
      exact PrefilterOutcome.noConfusion hm
    · intro cands hc
      rw [hsp] at hc
      injection hc with h
      subst h
      refine ⟨hfc.symm, ?_⟩
      intro c hcc
      exact Option.noConfusion hcc
  · by_cases hm0 : (prefilterMatching c tcs secs).length = 0
    · have hsp : sectionPrefilter bug tcs secs = .delegate tcs := by
        unfold sectionPrefilter
        rw [hcrit]
        simp only [if_pos hm0]
      have hfc : filteredCandidates bug tcs secs = tcs := by
        unfold filteredCandidates
        rw [hcrit]
        simp only [if_pos hm0]
      refine ⟨?_, ?_, ?_, hbypass⟩
      · constructor
        · rintro ⟨m, hm⟩
          rw [hsp] at hm
          exact PrefilterOutcome.noConfusion hm
        · rintro ⟨c2, hc2, hlen, _⟩
          injection hc2 with h
          subst h
          exact absurd hm0 hlen
      · intro m hm
        rw [hsp] at hm
        exact PrefilterOutcome.noConfusion hm
      · intro cands hc
        rw [hsp] at hc
        injection hc with h
        subst h
        refine ⟨hfc.symm, ?_⟩
        intro c2 hc2
        injection hc2 with h2
        subst h2
        intro hlen
        exact absurd hm0 hlen
    · by_cases h1 : (flattenGroups (prefilterMatching c tcs secs)).length = 1
      · have hsp : sectionPrefilter bug tcs secs =
            .auto (autoMatchOf
              ((flattenGroups (prefilterMatching c tcs secs)).get ⟨0, by omega⟩)
              ((prefilterMatching c tcs secs).headD ⟨none, [], []⟩)) := by
          unfold sectionPrefilter
          rw [hcrit]
          simp only [if_neg hm0, dif_pos h1]
        obtain ⟨t, ht⟩ := List.length_eq_one.mp h1
        have honly : ∀ x, x ∈ flattenGroups (prefilterMatching c tcs secs) → x = t := by
          intro x hx
          rw [ht] at hx
          exact List.mem_singleton.mp hx
        have hgt : (flattenGroups (prefilterMatching c tcs secs)).get ⟨0, by omega⟩ = t :=
          honly _ (List.get_mem _ _ _)
        have htin : t ∈ tcs := by
          have : t ∈ flattenGroups (prefilterMatching c tcs secs) := by
            rw [ht]
            exact List.mem_singleton_self t
          rcases (mem_flattenGroups _ t).mp this with ⟨g, hg, hxt⟩
          have hgin : g ∈ groupTestCasesBySection tcs secs := by
            have := hg
            unfold prefilterMatching at this
            exact List.mem_of_mem_filter this
          exact groupTestCasesBySection_tests_sub tcs secs g hgin t hxt
        refine ⟨?_, ?_, ?_, hbypass⟩
        · constructor
          · intro _
            exact ⟨c, rfl, hm0, h1⟩
          · intro _
            exact ⟨_, hsp⟩
        · intro m hm
          rw [hsp] at hm
          injection hm with h
          subst h
          refine ⟨rfl, rfl, c, rfl, t, ht, ?_, htin⟩
          show ((flattenGroups (prefilterMatching c tcs secs)).get ⟨0, by omega⟩).test_id =
            t.test_id
          rw [hgt]
        · intro cands hc
          rw [hsp] at hc
          exact PrefilterOutcome.noConfusion hc
      · have hsp : sectionPrefilter bug tcs secs =
            .delegate (flattenGroups (prefilterMatching c tcs secs)) := by
          unfold sectionPrefilter
          rw [hcrit]
          simp only [if_neg hm0, dif_neg h1]
        have hfc : filteredCandidates bug tcs secs =
            flattenGroups (prefilterMatching c tcs secs) := by
          unfold filteredCandidates
          rw [hcrit]
          simp only [if_neg hm0]
        refine ⟨?_, ?_, ?_, hbypass⟩
        · constructor
          · rintro ⟨m, hm⟩
            rw [hsp] at hm
            exact PrefilterOutcome.noConfusion hm
          · rintro ⟨c2, hc2, _, hlen⟩
            injection hc2 with h
            subst h
            exact absurd hlen h1
        · intro m hm
          rw [hsp] at hm
          exact PrefilterOutcome.noConfusion hm
        · intro cands hc
          rw [hsp] at hc
          injection hc with h
          subst h
          refine ⟨hfc.symm, ?_⟩
          intro c2 hc2
          injection hc2 with h2
          subst h2
          intro _
          exact h1

/-- C6 witness: a concrete pre-filter run — criterion `Page Titled`, one
matching section holding exactly one candidate — auto-matches with
confidence `1`, bypassing the reasoning model. -/
theorem C6_prefilter_automatch_iff_witness :
    ∃ m, sectionPrefilter ⟨str "B-5", str "508c | Page Titled | broken title", []⟩
        [⟨str "31834450", str "300", str "No meaningful page title", some 7⟩,
         ⟨str "2", str "20", str "Other test", some 8⟩]
        (.ok [⟨7, str "Page Titled"⟩, ⟨8, str "Forms"⟩]) = .auto m ∧
      m.confidence = 1 ∧ m.autoMatched = true ∧ m.test_id = str "31834450" := by
  obtain ⟨m, hm⟩ :=
    (C6_prefilter_automatch_iff ⟨str "B-5", str "508c | Page Titled | broken title", []⟩
      [⟨str "31834450", str "300", str "No meaningful page title", some 7⟩,
       ⟨str "2", str "20", str "Other test", some 8⟩]
      (.ok [⟨7, str "Page Titled"⟩, ⟨8, str "Forms"⟩])).1.mpr
      ⟨str "Page Titled", by decide, by decide, by decide⟩
  rcases (C6_prefilter_automatch_iff ⟨str "B-5", str "508c | Page Titled | broken title", []⟩
      [⟨str "31834450", str "300", str "No meaningful page title", some 7⟩,
       ⟨str "2", str "20", str "Other test", some 8⟩]
      (.ok [⟨7, str "Page Titled"⟩, ⟨8, str "Forms"⟩])).2.1 m hm with
    ⟨h1, h2, c, hc, t, ht, hid, htin⟩
  refine ⟨m, hm, h1, h2, ?_⟩
  have hc2 : c = str "Page Titled" := by
    have : prefilterCriterion ⟨str "B-5", str "508c | Page Titled | broken title", []⟩ =
        some (str "Page Titled") := by decide
    rw [this] at hc
    exact (Option.some_inj.mp hc).symm
  subst hc2
  have ht2 : t = ⟨str "31834450", str "300", str "No meaningful page title", some 7⟩ := by
    have hflat : flattenGroups (prefilterMatching (str "Page Titled")
        [⟨str "31834450", str "300", str "No meaningful page title", some 7⟩,
         ⟨str "2", str "20", str "Other test", some 8⟩]
        (.ok [⟨7, str "Page Titled"⟩, ⟨8, str "Forms"⟩])) =
        [⟨str "31834450", str "300", str "No meaningful page title", some 7⟩] := by
      decide
    rw [hflat] at ht
    exact (List.cons_eq_cons.mp ht.symm).1
  rw [hid, ht2]

theorem dedupByTestId_sub (l : List RawMatch) (seen : List Str) :
    ∀ m ∈ dedupByTestId l seen, m ∈ l ∧ m.test_id ∉ seen := by
  induction l generalizing seen with
  | nil =>
    intro m hm
    simp [dedupByTestId] at hm
  | cons a rest ih =>
    intro m hm
    unfold dedupByTestId at hm
    by_cases hseen : a.test_id ∈ seen
    · rw [if_pos hseen] at hm
      rcases ih seen m hm with ⟨h1, h2⟩
      exact ⟨List.mem_cons_of_mem _ h1, h2⟩
    · rw [if_neg hseen] at hm
      rcases List.mem_cons.mp hm with rfl | hm2
      · exact ⟨List.mem_cons_self _ _, hseen⟩
      · rcases ih _ m hm2 with ⟨h1, h2⟩
        refine ⟨List.mem_cons_of_mem _ h1, fun hc => h2 (List.mem_cons_of_mem _ hc)⟩

theorem dedupByTestId_find (t : Str) (l : List RawMatch) (seen : List Str)
    (ht : t ∉ seen) :
    (dedupByTestId l seen).find? (fun m => decide (m.test_id = t)) =
      l.find? (fun m => decide (m.test_id = t)) := by
  induction l generalizing seen with
  | nil => rfl
  | cons a rest ih =>
    unfold dedupByTestId
    by_cases hseen : a.test_id ∈ seen
    · rw [if_pos hseen]
      have hat : ¬ a.test_id = t := fun h => ht (h ▸ hseen)
      rw [ih seen ht, List.find?_cons_of_neg _ (by simp [hat])]
    · rw [if_neg hseen]
      by_cases hat : a.test_id = t
      · rw [List.find?_cons_of_pos _ (by simp [hat]),
          List.find?_cons_of_pos _ (by simp [hat])]
      · rw [List.find?_cons_of_neg _ (by simp [hat]),
          List.find?_cons_of_neg _ (by simp [hat])]
        refine ih _ ?_
        simp only [List.mem_cons]
        rintro (h | h)
        · exact hat h.symm
        · exact ht h

theorem nodup_keys_dedupByTestId (l : List RawMatch) (seen : List Str) :
    ((dedupByTestId l seen).map (fun m => m.test_id)).Nodup := by
  induction l generalizing seen with
  | nil => simp [dedupByTestId]
  | cons a rest ih =>
    unfold dedupByTestId
    by_cases hseen : a.test_id ∈ seen
    · rw [if_pos hseen]
      exact ih seen
    · rw [if_neg hseen]
      simp only [List.map_cons, List.nodup_cons]
      refine ⟨?_, ih _⟩
      intro hmem
      rcases List.mem_map.mp hmem with ⟨m2, hm2, hk⟩
      exact (dedupByTestId_sub rest (a.test_id :: seen) m2 hm2).2
        (hk ▸ List.mem_cons_self _ _)

theorem sorted_find_is_max (l : List RawMatch) (hs : l.Pairwise confGe) (t : Str)
    (m : RawMatch) (hf : l.find? (fun x => decide (x.test_id = t)) = some m) :
    ∀ x ∈ l, x.test_id = t → x.confidence ≤ m.confidence := by
  induction l with
  | nil => simp at hf
  | cons a rest ih =>
    intro x hx hxt
    rcases List.pairwise_cons.mp hs with ⟨ha, hrest⟩
    by_cases hat : a.test_id = t
    · rw [List.find?_cons_of_pos _ (by simp [hat])] at hf
      injection hf with h
      subst h
      rcases List.mem_cons.mp hx with rfl | hx2
      · exact le_refl _
      · exact ha x hx2
    · rw [List.find?_cons_of_neg _ (by simp [hat])] at hf
      rcases List.mem_cons.mp hx with rfl | hx2
      · exact absurd hxt hat
      · exact ih hrest hf x hx2 hxt

theorem filter_key_length_le_one (l : List RawMatch)
    (hn : (l.map (fun m => m.test_id)).Nodup) (t : Str) :
    (l.filter (fun m => decide (m.test_id = t))).length ≤ 1 := by
  induction l with
  | nil => simp
  | cons a rest ih =>
    simp only [List.map_cons, List.nodup_cons] at hn
    simp only [List.filter_cons]
    by_cases h : a.test_id = t
    · rw [if_pos (by simp [h])]
      have hnil : (rest.filter (fun m => decide (m.test_id = t))).length = 0 := by
        rw [List.length_eq_zero, List.filter_eq_nil_iff]
        intro x hx
        simp only [decide_eq_true_eq]
        intro hxt
        exact hn.1 (List.mem_map.mpr ⟨x, hx, by rw [hxt, h]⟩)
      simp [hnil]
    · rw [if_neg (by simp [h])]
      exact ih hn.2

theorem filter_key_length_pos (l : List RawMatch) (m0 : RawMatch) (hm : m0 ∈ l)
    (t : Str) (hk : m0.test_id = t) :
    0 < (l.filter (fun m => decide (m.test_id = t))).length := by
  have hmem : m0 ∈ l.filter (fun m => decide (m.test_id = t)) :=
    List.mem_filter.mpr ⟨hm, by simp [hk]⟩
  exact List.length_pos.mpr (List.ne_nil_of_mem hmem)

/-- C5: in multi-match mode, whenever the raw model output contains two or
more valid above-threshold entries with the same `test_id` but differing
confidence, the engine's returned list contains exactly one entry for that
`test_id`, and its confidence is maximal among all valid above-threshold raw
entries carrying that `test_id` (entries are sorted by confidence descending
and the first occurrence of each `test_id` is kept). -/
theorem C5_multiMatch_dedup_keepsHighest (cfg : EngineConfig) (bug : BugData)
    (tcs : List TestCase) (raw : List RawMatch) (t : Str) (m1 m2 : RawMatch)
    (hmm : cfg.enableMultiMatch = true)
    (h1 : m1 ∈ raw) (h2 : m2 ∈ raw)
    (hv1 : validateMatch m1 tcs = true) (hv2 : validateMatch m2 tcs = true)
    (ht1 : cfg.multiMatchThreshold ≤ m1.confidence)
    (ht2 : cfg.multiMatchThreshold ≤ m2.confidence)
    (hk1 : m1.test_id = t) (hk2 : m2.test_id = t)
    (hne : m1.confidence ≠ m2.confidence) :
    ∃ l, matchBugToTestCase cfg [] [] bug tcs (.multi raw) = .ok l ∧
      (l.filter (fun m => decide (m.test_id = t))).length = 1 ∧
      ∃ m ∈ l, m.test_id = t ∧
        ∀ m3 ∈ raw, validateMatch m3 tcs = true →
          cfg.multiMatchThreshold ≤ m3.confidence → m3.test_id = t →
          m3.confidence ≤ m.confidence := by
  have hmemV : ∀ m3 ∈ raw, validateMatch m3 tcs = true →
      cfg.multiMatchThreshold ≤ m3.confidence →
      m3 ∈ raw.filter
        (fun m => validateMatch m tcs && decide (m.confidence ≥ cfg.multiMatchThreshold)) := by
    intro m3 h3 hv3 ht3
    refine List.mem_filter.mpr ⟨h3, ?_⟩
    rw [Bool.and_eq_true]
    exact ⟨hv3, decide_eq_true ht3⟩
  have hmemS : ∀ m3 ∈ raw, validateMatch m3 tcs = true →
      cfg.multiMatchThreshold ≤ m3.confidence →
      m3 ∈ List.insertionSort confGe (raw.filter
        (fun m => validateMatch m tcs && decide (m.confidence ≥ cfg.multiMatchThreshold))) := by
    intro m3 h3 hv3 ht3
    exact ((List.perm_insertionSort confGe _).mem_iff).mpr (hmemV m3 h3 hv3 ht3)
  have hm1S := hmemS m1 h1 hv1 ht1
  have hsorted : (List.insertionSort confGe (raw.filter
      (fun m => validateMatch m tcs && decide (m.confidence ≥ cfg.multiMatchThreshold)))).Pairwise
      confGe :=
    List.sorted_insertionSort confGe _
  obtain ⟨m0, hm0⟩ : ∃ m0, (List.insertionSort confGe (raw.filter
      (fun m => validateMatch m tcs &&
        decide (m.confidence ≥ cfg.multiMatchThreshold)))).find?
      (fun x => decide (x.test_id = t)) = some m0 := by
    cases hcase : (List.insertionSort confGe (raw.filter
        (fun m => validateMatch m tcs &&
          decide (m.confidence ≥ cfg.multiMatchThreshold)))).find?
        (fun x => decide (x.test_id = t)) with
    | some m0 => exact ⟨m0, rfl⟩
    | none =>
      rw [List.find?_eq_none] at hcase
      exact absurd (show (decide (m1.test_id = t)) = true by simp [hk1])
        (hcase m1 hm1S)
  have hfindD : (dedupByTestId (List.insertionSort confGe (raw.filter
      (fun m => validateMatch m tcs &&
        decide (m.confidence ≥ cfg.multiMatchThreshold)))) []).find?
      (fun x => decide (x.test_id = t)) = some m0 := by
    rw [dedupByTestId_find t _ [] (by simp)]
    exact hm0
  have hm0D : m0 ∈ dedupByTestId (List.insertionSort confGe (raw.filter
      (fun m => validateMatch m tcs &&
        decide (m.confidence ≥ cfg.multiMatchThreshold)))) [] :=
    List.mem_of_find?_eq_some hfindD
  have hm0key : m0.test_id = t := by
    have := List.find?_some hfindD
    simpa using this
  have hDne : ¬ (dedupByTestId (List.insertionSort confGe (raw.filter
      (fun m => validateMatch m tcs &&
        decide (m.confidence ≥ cfg.multiMatchThreshold)))) []).length = 0 := by
    intro h0
    rw [List.length_eq_zero] at h0
    rw [h0] at hm0D
    simp at hm0D
  have hproc : processMultiMatches tcs cfg.multiMatchThreshold raw =
      .ok (dedupByTestId (List.insertionSort confGe (raw.filter
        (fun m => validateMatch m tcs &&
          decide (m.confidence ≥ cfg.multiMatchThreshold)))) []) := by
    simp only [processMultiMatches]
    rw [if_neg hDne]
  have hlearn : findSimilarMatchesCore bug [] [] = [] := rfl
  have hengine : matchBugToTestCase cfg [] [] bug tcs (.multi raw) =
      .ok ((dedupByTestId (List.insertionSort confGe (raw.filter
        (fun m => validateMatch m tcs &&
          decide (m.confidence ≥ cfg.multiMatchThreshold)))) []).map rawToEngine) := by
    simp [matchBugToTestCase, aiPathFn, hmm, hlearn, hproc, Except.map]
  refine ⟨_, hengine, ?_, ?_⟩
  · rw [List.filter_map, List.length_map]
    show (List.filter (fun m : RawMatch => decide (m.test_id = t)) _).length = 1
    have hnd := nodup_keys_dedupByTestId (List.insertionSort confGe (raw.filter
      (fun m => validateMatch m tcs &&
        decide (m.confidence ≥ cfg.multiMatchThreshold)))) []
    exact Nat.le_antisymm (filter_key_length_le_one _ hnd t)
      (filter_key_length_pos _ m0 hm0D t hm0key)
  · refine ⟨rawToEngine m0, List.mem_map_of_mem rawToEngine hm0D, hm0key, ?_⟩
    intro m3 h3 hv3 ht3 hk3
    exact sorted_find_is_max _ hsorted t m0 hm0 m3 (hmemS m3 h3 hv3 ht3) hk3

/-- C5 witness: two valid above-threshold raw entries for test `1` with
confidences `0.8` and `0.9` — the engine keeps exactly one, of maximal
confidence. -/
theorem C5_multiMatch_dedup_keepsHighest_witness :
    ∃ l, matchBugToTestCase ⟨true, 0.75, 0.7⟩ [] [] ⟨str "B-9", str "two issues", []⟩
        [⟨str "1", str "10", str "T", none⟩]
        (.multi [⟨str "1", str "10", str "T", 0.8, str "r1"⟩,
                 ⟨str "1", str "10", str "T", 0.9, str "r2"⟩]) = .ok l ∧
      (l.filter (fun m => decide (m.test_id = str "1"))).length = 1 ∧
      ∃ m ∈ l, m.test_id = str "1" ∧
        ∀ m3 ∈ [(⟨str "1", str "10", str "T", 0.8, str "r1"⟩ : RawMatch),
                ⟨str "1", str "10", str "T", 0.9, str "r2"⟩],
          validateMatch m3 [⟨str "1", str "10", str "T", none⟩] = true →
          (0.75 : ℚ) ≤ m3.confidence → m3.test_id = str "1" →
          m3.confidence ≤ m.confidence :=
  C5_multiMatch_dedup_keepsHighest ⟨true, 0.75, 0.7⟩ ⟨str "B-9", str "two issues", []⟩
    [⟨str "1", str "10", str "T", none⟩]
    [⟨str "1", str "10", str "T", 0.8, str "r1"⟩, ⟨str "1", str "10", str "T", 0.9, str "r2"⟩]
    (str "1") ⟨str "1", str "10", str "T", 0.8, str "r1"⟩
    ⟨str "1", str "10", str "T", 0.9, str "r2"⟩ rfl
    (List.mem_cons_self _ _) (List.mem_cons_of_mem _ (List.mem_cons_self _ _))
    (by decide) (by decide) (by norm_num) (by norm_num) rfl rfl (by norm_num)

theorem validateMatch_sound (m : RawMatch) (tcs : List TestCase)
    (h : validateMatch m tcs = true) : ∃ tc ∈ tcs, tc.test_id = m.test_id := by
  unfold validateMatch at h
  rw [Bool.and_eq_true] at h
  rcases h with ⟨_, hany⟩
  rcases List.any_eq_true.mp hany with ⟨tc, htc, heq⟩
  exact ⟨tc, htc, of_decide_eq_true heq⟩

theorem processMultiMatches_ok_mem (tcs : List TestCase) (thr : ℚ)
    (ms : List RawMatch) (D : List RawMatch)
    (h : processMultiMatches tcs thr ms = .ok D) :
    ∀ m ∈ D, m ∈ ms ∧ validateMatch m tcs = true ∧ thr ≤ m.confidence := by
  simp only [processMultiMatches] at h
  by_cases h0 : (dedupByTestId (List.insertionSort confGe (ms.filter
      (fun m => validateMatch m tcs && decide (m.confidence ≥ thr)))) []).length = 0
  · rw [if_pos h0] at h
    exact absurd h (by simp)
  · rw [if_neg h0] at h
    injection h with h
    subst h
    intro m hm
    have h1 := (dedupByTestId_sub _ _ m hm).1
    have h2 := ((List.perm_insertionSort confGe _).mem_iff).mp h1
    have h3 := List.mem_filter.mp h2
    have h4 := h3.2
    rw [Bool.and_eq_true] at h4
    exact ⟨h3.1, h4.1, of_decide_eq_true h4.2⟩

theorem aiPathFn_sound (cfg : EngineConfig) (tcs : List TestCase) (resp : AIResult)
    (l : List EngineMatch) (hok : aiPathFn cfg tcs resp = .ok l) :
    ∀ m ∈ l, ∃ tc ∈ tcs, tc.test_id = m.test_id := by
  intro m hm
  cases hemm : cfg.enableMultiMatch with
  | false =>
    rcases resp with m0 | ms <;>
    · simp only [aiPathFn, hemm, respAsSingle] at hok
      split at hok
      · injection hok with h
        subst h
        have hm2 := List.mem_singleton.mp hm
        subst hm2
        rename_i hv
        exact validateMatch_sound _ tcs hv
      · exact absurd hok (by simp)
  | true =>
    rcases resp with m0 | ms
    · simp only [aiPathFn, hemm, respAsSingle] at hok
      split at hok
      · injection hok with h
        subst h
        have hm2 := List.mem_singleton.mp hm
        subst hm2
        rename_i hv
        exact validateMatch_sound _ tcs hv
      · exact absurd hok (by simp)
    · simp only [aiPathFn, hemm] at hok
      cases hproc : processMultiMatches tcs cfg.multiMatchThreshold ms with
      | error e =>
        rw [hproc] at hok
        exact absurd hok (by simp [Except.map])
      | ok D =>
        rw [hproc] at hok
        simp only [Except.map] at hok
        injection hok with h
        subst h
        rcases List.mem_map.mp hm with ⟨m2, hm2, rfl⟩
        rcases processMultiMatches_ok_mem tcs _ ms D hproc m2 hm2 with ⟨_, hv, _⟩
        exact validateMatch_sound m2 tcs hv

/-- C1 (amended): on every successful `matchBugToTestCase` invocation, every
returned match's `test_id` is a member of the candidate list — in
multi-match mode (model-derived and learned matches alike), and in
single-match mode whenever the result does not come from the correction
store (`findSimilarMatch` returned nothing).  A single-match learned result
is returned without any candidate validation — see the counterexample. -/
theorem C1_identifierSoundness_exceptSingleLearned (cfg : EngineConfig)
    (corrections : List Correction) (recs : List MatchRecord) (bug : BugData)
    (tcs : List TestCase) (resp : AIResult) (l : List EngineMatch)
    (hok : matchBugToTestCase cfg corrections recs bug tcs resp = .ok l) :
    (cfg.enableMultiMatch = true → ∀ m ∈ l, ∃ tc ∈ tcs, tc.test_id = m.test_id) ∧
    (cfg.enableMultiMatch = false → findSimilarMatchCore bug corrections = none →
      ∀ m ∈ l, ∃ tc ∈ tcs, tc.test_id = m.test_id) := by
  constructor
  · intro hmm
    simp only [matchBugToTestCase, hmm, Bool.true_eq_false, if_false] at hok
    by_cases hl : (findSimilarMatchesCore bug corrections recs).length > 0
    · rw [if_pos hl] at hok
      by_cases hv : ((findSimilarMatchesCore bug corrections recs).filter
          (fun lm => tcs.any (fun tc => tc.test_id = lm.test_id))).length =
          (findSimilarMatchesCore bug corrections recs).length
      · rw [if_pos hv] at hok
        injection hok with h
        subst h
        intro m hm
        rcases List.mem_map.mp hm with ⟨lm, hlm, rfl⟩
        have h2 := (List.mem_filter.mp hlm).2
        rcases List.any_eq_true.mp h2 with ⟨tc, htc, heq⟩
        exact ⟨tc, htc, of_decide_eq_true heq⟩
      · rw [if_neg hv] at hok
        exact aiPathFn_sound _ _ _ _ hok
    · rw [if_neg hl] at hok
      exact aiPathFn_sound _ _ _ _ hok
  · intro hsm hnone
    simp only [matchBugToTestCase, hsm, hnone] at hok
    exact aiPathFn_sound _ _ _ _ hok

/-- C1 witness: a concrete single-match run with an empty correction store —
the model's validated answer is in the candidate list. -/
theorem C1_identifierSoundness_exceptSingleLearned_witness :
    ∃ tc ∈ [(⟨str "1", str "10", str "T", none⟩ : TestCase)],
      tc.test_id = (rawToEngine ⟨str "1", str "10", str "T", 0.9, str "r"⟩).test_id :=
  (C1_identifierSoundness_exceptSingleLearned ⟨false, 0.75, 0.7⟩ [] []
    ⟨str "B-9", str "bug", []⟩ [⟨str "1", str "10", str "T", none⟩]
    (.single ⟨str "1", str "10", str "T", 0.9, str "r"⟩)
    [rawToEngine ⟨str "1", str "10", str "T", 0.9, str "r"⟩] rfl).2 rfl rfl
    (rawToEngine ⟨str "1", str "10", str "T", 0.9, str "r"⟩)
    (List.mem_singleton_self _)

/-- C1 (counterexample): in single-match mode a learned match is returned
without candidate validation — with a correction pointing at test `999` and
a candidate list that does not contain `999`, `matchBugToTestCase` returns
successfully with a learned match whose `test_id` is outside the
candidates. -/
theorem C1_counterexample_singleLearned_unvalidated :
    ∃ l, matchBugToTestCase ⟨false, 0.75, 0.7⟩ [exCorrButton] [] exBugButton
        exCandidates (.single ⟨str "1", str "10", str "Some test", 0.9, str "r"⟩) =
        .ok l ∧
      ∃ m ∈ l, m.learned = true ∧ m.test_id = str "999" ∧
        ∀ tc ∈ exCandidates, tc.test_id ≠ m.test_id := by
  have hi : (dedupKeepFirst ((extractKeywords (bugText exBugButton)).filter
      (fun x => x ∈ extractKeywords (bugText exCorrButton.bug)))).length = 3 := by
    decide
  have hu : (dedupKeepFirst ((extractKeywords (bugText exBugButton)) ++
      extractKeywords (bugText exCorrButton.bug))).length = 3 := by
    decide
  have hs : scoreAgainstCorrection (extractKeywords (bugText exBugButton)) exCorrButton = 1 := by
    simp only [scoreAgainstCorrection, calculateKeywordMatch, hi, hu]
    norm_num
  have hp : (decide (scoreAgainstCorrection
      (extractKeywords (bugText exBugButton)) exCorrButton > 0.6)) = true := by
    rw [decide_eq_true_eq, hs]
    norm_num
  have hfind : findSimilarMatchCore exBugButton [exCorrButton] =
      some (synthSingle exCorrButton
        (scoreAgainstCorrection (extractKeywords (bugText exBugButton)) exCorrButton)) := by
    unfold findSimilarMatchCore
    rw [if_neg (by decide)]
    rw [findSimilarScan_eq_find]
    simp only [List.reverse_singleton, List.find?, hp, Option.map_some']
  have hrun : matchBugToTestCase ⟨false, 0.75, 0.7⟩ [exCorrButton] [] exBugButton
      exCandidates (.single ⟨str "1", str "10", str "Some test", 0.9, str "r"⟩) =
      .ok [{ test_id := (synthSingle exCorrButton
              (scoreAgainstCorrection (extractKeywords (bugText exBugButton))
                exCorrButton)).test_id
             case_id := (synthSingle exCorrButton
              (scoreAgainstCorrection (extractKeywords (bugText exBugButton))
                exCorrButton)).case_id
             title := (synthSingle exCorrButton
              (scoreAgainstCorrection (extractKeywords (bugText exBugButton))
                exCorrButton)).title
             confidence := (synthSingle exCorrButton
              (scoreAgainstCorrection (extractKeywords (bugText exBugButton))
                exCorrButton)).confidence
             reasoning := str "Learned from previous correction: "
               ++ (synthSingle exCorrButton
                (scoreAgainstCorrection (extractKeywords (bugText exBugButton))
                  exCorrButton)).reasoning
             learned := true, autoMatched := false }] := by
    simp only [matchBugToTestCase, hfind, eq_self_iff_true, if_true]
  refine ⟨_, hrun, _, List.mem_singleton_self _, rfl, rfl, by decide⟩
